import Mathlib

/-!
# isokit: template registry

A shallow embedding of the template registry of `isokit` (`template.go`,
`templatebundle.go`, `templateset.go`) and the properties proved about it.

Conventions of the embedding

* Go strings are Lean strings; `strings.HasPrefix` and friends are defined on the
  character sequence.
* A Go `map[string]V` is a finite partial function `String → Option V`.  A `range`
  loop over a map visits the entries in an unspecified order: every loop of the
  program takes the order of its visit as an argument, and the theorems hold for
  every order that is a valid visit of the map (`IsKeyRangeOf`).
* `*TemplateBundle` values are pointers: bundles live in a heap and the registry
  stores their addresses, so that two namespaces may share one bundle exactly as
  in the program.
* `*Template` values are created fresh by each import and never shared between
  two keys, so the member table stores the templates themselves; the mutation
  `member.AddParseTree(...)` is a write-back into the table.
* The template engine (`html/template`) is external.  Its parser, for the function
  table `Funcs` of the registry, is a parameter `parse`; its name space (`New`,
  `Parse`, `Lookup`, `AddParseTree`, and the `escaped` mark set by `Execute`) is
  modelled by `HtmlTemplate`.
* An operation that returns a Go `error` returns the new state together with
  `Option Error` (`none` is `nil`).
-/

namespace Isokit

/-! ## Strings -/

/-- Go `strings.HasPrefix`. -/
def HasPrefix (s pre : String) : Bool :=
  pre.data.isPrefixOf s.data

/-- Go `strings.HasSuffix`. -/
def HasSuffix (s suf : String) : Bool :=
  suf.data.isSuffixOf s.data

/-- Go `strings.TrimPrefix`. -/
def TrimPrefix (s pre : String) : String :=
  if HasPrefix s pre then ⟨s.data.drop pre.data.length⟩ else s

/-- Go `strings.TrimSuffix`. -/
def TrimSuffix (s suf : String) : String :=
  if HasSuffix s suf then ⟨s.data.take (s.data.length - suf.data.length)⟩ else s

/-- Left-to-right replacement of the non-overlapping occurrences of a non-empty
`old`; `skip` counts the characters of the occurrence just matched that are still
to be dropped. -/
def replaceFrom (old new : List Char) : Nat → List Char → List Char
  | _, [] => []
  | skip + 1, _ :: cs => replaceFrom old new skip cs
  | 0, c :: cs =>
    if old.isPrefixOf (c :: cs) then new ++ replaceFrom old new (old.length - 1) cs
    else c :: replaceFrom old new 0 cs

/-- Go `strings.Replace(s, old, new, -1)`: every non-overlapping occurrence of `old`
is replaced; an empty `old` matches before every character and at the end. -/
def Replace (s old new : String) : String :=
  if old.data = [] then ⟨new.data ++ s.data.flatMap (fun c => c :: new.data)⟩
  else ⟨replaceFrom old.data new.data 0 s.data⟩

/-! ## Maps -/

/-- A Go `map[string]V`. -/
abbrev GoMap (V : Type) := String → Option V

/-- The empty map, `map[string]V{}`. -/
def mapEmpty {V : Type} : GoMap V := fun _ => none

/-- The assignment `m[k] = v`. -/
def mapPut {V : Type} (m : GoMap V) (k : String) (v : V) : GoMap V :=
  fun x => if x = k then some v else m x

/-- The map holding the entries of a list, the first entry of a key winning. -/
def mapOfList {V : Type} : List (String × V) → GoMap V
  | [] => mapEmpty
  | (k, v) :: rest => fun x => if x = k then some v else mapOfList rest x

/-- The list `ord` is a possible visit of the keys of `m` by a `range` loop: every key
of `m` exactly once. -/
def IsKeyRangeOf {V : Type} (m : GoMap V) (ord : List String) : Prop :=
  ord.Nodup ∧ ∀ k, k ∈ ord ↔ (m k).isSome = true

/-! ## template.go -/

abbrev Error := String

abbrev TemplateType := Int

def TemplateRegular : TemplateType := 0
def TemplatePartial : TemplateType := 1
def TemplateView : TemplateType := 2
def TemplateComponent : TemplateType := 3
def TemplateDialog : TemplateType := 4
def TemplateForm : TemplateType := 5
def TemplateLayout : TemplateType := 6

/-- The package variables `PrefixName*` and `TemplateFileExtension`. -/
structure Config where
  PrefixNamePartial : String
  PrefixNameLayout : String
  PrefixNameView : String
  PrefixNameComponent : String
  PrefixNameDialog : String
  PrefixNameForm : String
  TemplateFileExtension : String
  deriving DecidableEq

/-- The initial values of the package variables. -/
def defaultConfig : Config where
  PrefixNamePartial := "partials/"
  PrefixNameLayout := "layouts/"
  PrefixNameView := "views/"
  PrefixNameComponent := "components/"
  PrefixNameDialog := "dialogs/"
  PrefixNameForm := "forms/"
  TemplateFileExtension := ".tmpl"

/-- What the registry observes of an `html/template` value: its name, its parse
tree, the templates of its name space (`Lookup` finds exactly these, each with its
parse tree) and whether the name space has been executed. -/
structure HtmlTemplate (Tree : Type) where
  name : String
  tree : Tree
  set : GoMap Tree
  escaped : Bool

/-- The engine method `Lookup`: `none` is the nil template. -/
def HtmlTemplate.Lookup {Tree : Type} (t : HtmlTemplate Tree) (name : String) : Option Tree :=
  t.set name

/-- The engine method `AddParseTree`: refused once the name space has been executed,
otherwise the tree is associated with the name. -/
def HtmlTemplate.AddParseTree {Tree : Type} (t : HtmlTemplate Tree) (name : String)
    (tree : Tree) : Except Error (HtmlTemplate Tree) :=
  if t.escaped then .error "html/template: cannot Parse after Execute"
  else .ok { t with set := mapPut t.set name tree }

/-- The engine method `Execute`, as far as the name space is concerned: it marks the
name space as executed. -/
def HtmlTemplate.Execute {Tree : Type} (t : HtmlTemplate Tree) : HtmlTemplate Tree :=
  { t with escaped := true }

/-- The engine call `template.New(name).Funcs(funcs).Parse(text)`.  The parser
`parse name text` of the engine (for the function table in use) yields the tree of
the template and the trees of the templates the text defines; the new template's
name space holds the template itself and those. -/
def parseTemplate {Tree : Type}
    (parse : String → String → Except Error (Tree × List (String × Tree)))
    (name text : String) : Except Error (HtmlTemplate Tree) :=
  match parse name text with
  | .error e => .error e
  | .ok (tree, defs) =>
    .ok { name := name, tree := tree, set := mapPut (mapOfList defs) name tree, escaped := false }

/-- The struct `Template`; `html` is the embedded `*template.Template`. -/
structure Template (Tree : Type) where
  html : HtmlTemplate Tree
  Namespace : String
  templateType : TemplateType

/-- The switch of `NameWithPrefix`; a kind outside the seven constants leaves
`prefixName` at its zero value. -/
def prefixName (cfg : Config) (templateType : TemplateType) : String :=
  if templateType = TemplateRegular then ""
  else if templateType = TemplatePartial then cfg.PrefixNamePartial
  else if templateType = TemplateLayout then cfg.PrefixNameLayout
  else if templateType = TemplateComponent then cfg.PrefixNameComponent
  else if templateType = TemplateDialog then cfg.PrefixNameDialog
  else if templateType = TemplateView then cfg.PrefixNameView
  else if templateType = TemplateForm then cfg.PrefixNameForm
  else ""

/-- The body of `NameWithPrefix` on a kind and a template name. -/
def applyPrefix (cfg : Config) (templateType : TemplateType) (name : String) : String :=
  if HasPrefix name (prefixName cfg templateType) then name
  else prefixName cfg templateType ++ name

/-- The method `NameWithPrefix`. -/
def Template.NameWithPrefix {Tree : Type} (cfg : Config) (t : Template Tree) : String :=
  applyPrefix cfg t.templateType t.html.name

/-- The method `NameWithNamespace`. -/
def Template.NameWithNamespace {Tree : Type} (cfg : Config) (t : Template Tree) : String :=
  t.Namespace ++ "/" ++ t.NameWithPrefix cfg

/-! ## templatebundle.go -/

/-- The struct `TemplateBundle`; `nsName` is its field `namespace`. -/
structure TemplateBundle where
  nsName : String
  items : GoMap String

/-- The bundles allocated so far, by address, and the next free address. -/
structure Heap where
  bundles : Nat → TemplateBundle
  next : Nat

/-- The function `NewTemplateBundle`: a fresh bundle with no item; returns its address. -/
def NewTemplateBundle (nsName : String) (h : Heap) : Nat × Heap :=
  (h.next, { bundles := Function.update h.bundles h.next { nsName := nsName, items := mapEmpty },
             next := h.next + 1 })

/-- The loop of `addItems` on the items: every entry of `items` is written into `dst`.
The writes go to distinct keys, so the result does not depend on the visit order. -/
def mergeItems (dst items : GoMap String) : GoMap String :=
  fun k => match items k with
    | some v => some v
    | none => dst k

/-- The method `addItems` on the bundle at address `b`. -/
def addItems (b : Nat) (items : GoMap String) (h : Heap) : Heap :=
  { bundles := Function.update h.bundles b
      ⟨(h.bundles b).nsName, mergeItems (h.bundles b).items items⟩,
    next := h.next }

/-- The function `normalizeTemplateNameForWindows`; `pathSeparator` is
`string(os.PathSeparator)`. -/
def normalizeTemplateNameForWindows (pathSeparator : String)
    (path templateDirectory TemplateFileExtension : String) : String :=
  let result := Replace path templateDirectory ""
  let result := Replace result pathSeparator "/"
  let result := Replace result TemplateFileExtension ""
  TrimPrefix result "/"

/-- The name that the walk function of `importTemplateFileContents` gives to the file
at `path` (`none`: the file is skipped); `windows` is `runtime.GOOS == "windows"`. -/
def templateNameOfPath (windows : Bool) (pathSeparator : String)
    (templateDirectory TemplateFileExtension path : String) : Option String :=
  if HasSuffix path TemplateFileExtension then
    let name := TrimSuffix (TrimPrefix path (templateDirectory ++ "/")) TemplateFileExtension
    if windows then
      some (normalizeTemplateNameForWindows pathSeparator path templateDirectory
        TemplateFileExtension)
    else some name
  else none

/-- The path under which `filepath.Walk` reports the file with the given components
below the root, on a host with the given separator, for a root that is a plain
directory path (neither `.` nor a file system root). -/
def walkPath (pathSeparator root : String) (components : List String) : String :=
  root ++ pathSeparator ++ pathSeparator.intercalate components

/-! ## templateset.go -/

/-- The struct `TemplateSet`; `namespaces` holds the addresses of the bundles.  The
function table `Funcs` is fixed in the parser `parse`. -/
structure TemplateSet (Tree Bytes : Type) where
  namespaces : GoMap Nat
  members : GoMap (Template Tree)
  binaryBundle : Option Bytes

/-- The function `NewTemplateSet`. -/
def NewTemplateSet {Tree Bytes : Type} : TemplateSet Tree Bytes where
  namespaces := mapEmpty
  members := mapEmpty
  binaryBundle := none

/-- The if-chain of `ImportTemplatesFromMap` that chooses `templateType`. -/
def classify (cfg : Config) (name : String) : TemplateType :=
  if HasPrefix name cfg.PrefixNamePartial then TemplatePartial
  else if HasPrefix name cfg.PrefixNameView then TemplateView
  else if HasPrefix name cfg.PrefixNameComponent then TemplateComponent
  else if HasPrefix name cfg.PrefixNameDialog then TemplateDialog
  else if HasPrefix name cfg.PrefixNameForm then TemplateForm
  else if HasPrefix name cfg.PrefixNameLayout then TemplateLayout
  else TemplateRegular

/-- The body of the inner loop of `MakeAllAssociations` for the template at key `tk`
and the member at key `mk`. -/
def associate {Tree : Type} (cfg : Config) (members : GoMap (Template Tree))
    (tk mk : String) : GoMap (Template Tree) × Option Error :=
  match members tk, members mk with
  | some template, some member =>
    if (member.html.Lookup (template.NameWithNamespace cfg)).isNone then
      match member.html.AddParseTree (template.NameWithNamespace cfg)
          template.html.tree with
      | .error err => (members, some err)
      | .ok tpl => (mapPut members mk { member with html := tpl }, none)
    else (members, none)
  | _, _ => (members, none)

/-- The inner loop of `MakeAllAssociations`, visiting the members in the given order. -/
def associateInner {Tree : Type} (cfg : Config) (tk : String) :
    List String → GoMap (Template Tree) → GoMap (Template Tree) × Option Error
  | [], members => (members, none)
  | mk :: rest, members =>
    match associate cfg members tk mk with
    | (members1, some err) => (members1, some err)
    | (members1, none) => associateInner cfg tk rest members1

/-- The outer loop of `MakeAllAssociations`; `inner tk` is the order in which the inner
loop run for the template at `tk` visits the members. -/
def associateOuter {Tree : Type} (cfg : Config) (inner : String → List String) :
    List String → GoMap (Template Tree) → GoMap (Template Tree) × Option Error
  | [], members => (members, none)
  | tk :: rest, members =>
    match associateInner cfg tk (inner tk) members with
    | (members1, some err) => (members1, some err)
    | (members1, none) => associateOuter cfg inner rest members1

/-- The method `MakeAllAssociations`: the registry it leaves, also when it aborts, and
the error it returns. -/
def MakeAllAssociations {Tree Bytes : Type} (cfg : Config) (outer : List String)
    (inner : String → List String) (t : TemplateSet Tree Bytes) :
    TemplateSet Tree Bytes × Option Error :=
  ({ t with members := (associateOuter cfg inner outer t.members).1 },
    (associateOuter cfg inner outer t.members).2)

/-- The loop of `ImportTemplatesFromMap` over the items of the bundle at address
`bundle`, the keys visited in the given order; the text of an item is read from the
bundle when the loop reaches its key. -/
def importItems {Tree Bytes : Type} (cfg : Config)
    (parse : String → String → Except Error (Tree × List (String × Tree)))
    (ns : String) (bundle : Nat) :
    List String → TemplateSet Tree Bytes × Heap →
      (TemplateSet Tree Bytes × Heap) × Option Error
  | [], s => (s, none)
  | name :: rest, (t, h) =>
    match (h.bundles bundle).items name with
    | none => importItems cfg parse ns bundle rest (t, h)
    | some templateContents =>
      let templateType := classify cfg name
      match parseTemplate parse name templateContents with
      | .error err => ((t, h), some err)
      | .ok tpl =>
        let tmpl : Template Tree :=
          { Namespace := ns, html := tpl, templateType := templateType }
        let t1 := { t with members := mapPut t.members (ns ++ "/" ++ name) tmpl }
        match t1.namespaces ns with
        | none =>
          importItems cfg parse ns bundle rest
            ({ t1 with namespaces := mapPut t1.namespaces ns bundle }, h)
        | some existing =>
          importItems cfg parse ns bundle rest
            (t1, addItems existing (h.bundles bundle).items h)

/-- The method `ImportTemplatesFromMap`.  The result of `MakeAllAssociations` is
dropped, as in the program. -/
def ImportTemplatesFromMap {Tree Bytes : Type} (cfg : Config)
    (parse : String → String → Except Error (Tree × List (String × Tree)))
    (ns : String) (bundle : Nat) (order : List String)
    (outer : List String) (inner : String → List String)
    (s : TemplateSet Tree Bytes × Heap) : (TemplateSet Tree Bytes × Heap) × Option Error :=
  match importItems cfg parse ns bundle order s with
  | (s1, some err) => (s1, some err)
  | ((t1, h1), none) => (((MakeAllAssociations cfg outer inner t1).1, h1), none)

/-- The method `Bundle`: the address of the bundle of a namespace. -/
def TemplateSet.Bundle {Tree Bytes : Type} (t : TemplateSet Tree Bytes) (ns : String) :
    Except Error Nat :=
  match t.namespaces ns with
  | none => .error ("Cannot get bundle for namespace " ++ ns ++ " as it doesnt exist")
  | some bundle => .ok bundle

/-- The raw text the registry holds for a name of a namespace,
`t.Bundle(ns).Items()[name]`; `none` when the namespace or the item is absent. -/
def rawText {Tree Bytes : Type} (s : TemplateSet Tree Bytes × Heap) (ns name : String) :
    Option String :=
  match s.1.Bundle ns with
  | .error _ => none
  | .ok bundle => (s.2.bundles bundle).items name

/-- The method `TemplateSet.Render` as far as the registry is concerned, for parameters
that pass the checks of `Template.Render`: the member at `templateURI` is executed
(`none`: there is no such member and the call dereferences nil). -/
def TemplateSet.Render {Tree Bytes : Type} (templateURI : String)
    (t : TemplateSet Tree Bytes) : Option (TemplateSet Tree Bytes) :=
  match t.members templateURI with
  | none => none
  | some member =>
    some { t with
      members := mapPut t.members templateURI { member with html := member.html.Execute } }

/-- The map `nmap` that the loop of `PersistTemplateBundleToDisk` builds: the items of
the bundle of every namespace. -/
def namespaceItems {Tree Bytes : Type} (t : TemplateSet Tree Bytes) (h : Heap) :
    GoMap (GoMap String) :=
  fun ns => match t.namespaces ns with
    | none => none
    | some bundle => some (h.bundles bundle).items

/-- The method `PersistTemplateBundleToDisk`.  `enc` is the gob encoder, `dirExists`
the outcome of the `os.Stat` test on `dirPath`, `writeFile` the outcome of
`ioutil.WriteFile` on the encoded bytes. -/
def PersistTemplateBundleToDisk {Tree Bytes : Type}
    (enc : GoMap (GoMap String) → Except Error Bytes) (dirExists : Bool) (dirPath : String)
    (writeFile : Bytes → Option Error) (t : TemplateSet Tree Bytes) (h : Heap) :
    TemplateSet Tree Bytes × Option Error :=
  if dirExists then
    match enc (namespaceItems t h) with
    | .error err => (t, some err)
    | .ok bytes => ({ t with binaryBundle := some bytes }, writeFile bytes)
  else
    (t, some ("The specified directory for the template bundle, " ++ dirPath ++
      ", does not exist!"))

/-- The loop of `RestoreTemplateBundleFromBinary` over the decoded map, the namespaces
visited in the order `nsOrder`; `itemOrder ns`, `outer ns` and `inner ns` are the visit
orders of the loops of the import of namespace `ns`. -/
def restoreNamespaces {Tree Bytes : Type} (cfg : Config)
    (parse : String → String → Except Error (Tree × List (String × Tree)))
    (templateBundleMap : GoMap (GoMap String)) (itemOrder : String → List String)
    (outer : String → List String) (inner : String → String → List String) :
    List String → TemplateSet Tree Bytes × Heap →
      (TemplateSet Tree Bytes × Heap) × Option Error
  | [], s => (s, none)
  | ns :: rest, (t, h) =>
    match templateBundleMap ns with
    | none => restoreNamespaces cfg parse templateBundleMap itemOrder outer inner rest (t, h)
    | some templateMap =>
      match NewTemplateBundle ns h with
      | (bnd, h1) =>
        match ImportTemplatesFromMap cfg parse ns bnd (itemOrder ns) (outer ns) (inner ns)
            (t, addItems bnd templateMap h1) with
        | (s1, some err) => (s1, some err)
        | (s1, none) =>
          restoreNamespaces cfg parse templateBundleMap itemOrder outer inner rest s1

/-- The method `RestoreTemplateBundleFromBinary`.  `dec` is the gob decoder: it yields
the decoded map and the bytes of the buffer it has not read. -/
def RestoreTemplateBundleFromBinary {Tree Bytes : Type}
    (dec : Bytes → Except Error (GoMap (GoMap String) × Bytes)) (cfg : Config)
    (parse : String → String → Except Error (Tree × List (String × Tree)))
    (nsOrder : List String) (itemOrder : String → List String)
    (outer : String → List String) (inner : String → String → List String)
    (bundle : Bytes) (s : TemplateSet Tree Bytes × Heap) :
    (TemplateSet Tree Bytes × Heap) × Option Error :=
  match dec bundle with
  | .error err => (s, some err)
  | .ok (templateBundleMap, unread) =>
    restoreNamespaces cfg parse templateBundleMap itemOrder outer inner nsOrder
      ({ s.1 with binaryBundle := some unread }, s.2)

/-! ## Auxiliary notions for the proofs -/

/-- The template `B` is `A` with possibly more names in its name space. -/
def Extends {Tree : Type} (A B : Template Tree) : Prop :=
  B.Namespace = A.Namespace ∧ B.templateType = A.templateType ∧ B.html.name = A.html.name ∧
    B.html.tree = A.html.tree ∧ B.html.escaped = A.html.escaped ∧
    ∀ n v, A.html.set n = some v → B.html.set n = some v

/-- The member table `ms1` has the keys of `ms` and each member extends the old one. -/
def Grows {Tree : Type} (ms ms1 : GoMap (Template Tree)) : Prop :=
  (∀ k, ms k = none → ms1 k = none) ∧ ∀ k A, ms k = some A → ∃ B, ms1 k = some B ∧ Extends A B

/-- The member at `mk` (if any) resolves the qualified name of the member at `tk` (if any). -/
def Resolves {Tree : Type} (cfg : Config) (ms : GoMap (Template Tree)) (tk mk : String) : Prop :=
  ∀ T M, ms tk = some T → ms mk = some M →
    (M.html.Lookup (T.NameWithNamespace cfg)).isSome = true

/-- The bytes of the toy codec of the examples: the encoded map itself. -/
abbrev ToyBytes := GoMap (GoMap String)

/-- The encoder of the toy codec. -/
def toyEnc (m : GoMap (GoMap String)) : Except Error ToyBytes := .ok m

/-- The decoder of the toy codec; it reads the whole buffer. -/
def toyDec (b : ToyBytes) : Except Error (GoMap (GoMap String) × ToyBytes) := .ok (b, mapEmpty)

/-- A toy parser for the examples: the tree of a text is the text, no text defines
another template, and a text that ends with the opening delimiter of an action is
refused. -/
def toyParse (_name text : String) : Except Error (String × List (String × String)) :=
  if HasSuffix text "\x7b\x7b" then .error "template: unclosed action" else .ok (text, [])

/-- The heap with no bundle allocated. -/
def emptyHeap : Heap where
  bundles := fun _ => { nsName := "", items := mapEmpty }
  next := 0

/-- Allocation of a bundle holding the given items (for the examples): `NewTemplateBundle`
followed by `addItems`. -/
def newBundleOf (nsName : String) (items : List (String × String)) (h : Heap) : Nat × Heap :=
  ((NewTemplateBundle nsName h).1, addItems (NewTemplateBundle nsName h).1 (mapOfList items)
    (NewTemplateBundle nsName h).2)

/-- The member table and the error that the loop of `ImportTemplatesFromMap` leaves,
as a function of the items of the bundle alone. -/
def importMembers {Tree : Type} (cfg : Config)
    (parse : String → String → Except Error (Tree × List (String × Tree)))
    (ns : String) (items : GoMap String) :
    List String → GoMap (Template Tree) → GoMap (Template Tree) × Option Error
  | [], ms => (ms, none)
  | name :: rest, ms =>
    match items name with
    | none => importMembers cfg parse ns items rest ms
    | some text =>
      match parseTemplate parse name text with
      | .error err => (ms, some err)
      | .ok tpl =>
        importMembers cfg parse ns items rest
          (mapPut ms (ns ++ "/" ++ name)
            { html := tpl, Namespace := ns, templateType := classify cfg name })

/-- The registry after `ImportTemplatesFromMap("n1", {"partials/x": "X"})` on a new
registry. -/
def afterFirstImport : (TemplateSet String ToyBytes × Heap) × Option Error :=
  ImportTemplatesFromMap defaultConfig toyParse "n1"
    (newBundleOf "n1" [("partials/x", "X")] emptyHeap).1 ["partials/x"]
    ["n1/partials/x"] (fun _ => ["n1/partials/x"])
    (NewTemplateSet, (newBundleOf "n1" [("partials/x", "X")] emptyHeap).2)

/-- The registry after the loop of the following call
`ImportTemplatesFromMap("n2", {"views/y": "Y"})`, before its association pass. -/
def afterSecondLoop : (TemplateSet String ToyBytes × Heap) × Option Error :=
  importItems defaultConfig toyParse "n2"
    (newBundleOf "n2" [("views/y", "Y")] afterFirstImport.1.2).1 ["views/y"]
    (afterFirstImport.1.1, (newBundleOf "n2" [("views/y", "Y")] afterFirstImport.1.2).2)

/-- The registry after the whole second call `ImportTemplatesFromMap("n2", {"views/y": "Y"})`. -/
def afterSecondImport : (TemplateSet String ToyBytes × Heap) × Option Error :=
  ImportTemplatesFromMap defaultConfig toyParse "n2"
    (newBundleOf "n2" [("views/y", "Y")] afterFirstImport.1.2).1 ["views/y"]
    ["n2/views/y", "n1/partials/x"] (fun _ => ["n1/partials/x", "n2/views/y"])
    (afterFirstImport.1.1, (newBundleOf "n2" [("views/y", "Y")] afterFirstImport.1.2).2)

/-- A configuration in which the prefix of the partials is a prefix of the prefix of the
views. -/
def overlappingConfig : Config :=
  { defaultConfig with PrefixNamePartial := "shared/", PrefixNameView := "shared/views/" }

/-- The name begins with none of the given prefixes. -/
def beginsWithNone (name : String) (prefixes : List String) : Bool :=
  prefixes.all (fun p => !HasPrefix name p)

/-- The registry after `Render("n1/partials/x", ...)` on the registry that holds the
template `n1/partials/x` (the registry itself if the member were missing). -/
def afterRender : TemplateSet String ToyBytes :=
  match TemplateSet.Render "n1/partials/x" afterFirstImport.1.1 with
  | some t => t
  | none => afterFirstImport.1.1

/-- The import of the three items `a`, `b`, `c` into `app` on a new registry, visited in
this order; the text of `b` does not parse. -/
def threeItemImport : (TemplateSet String ToyBytes × Heap) × Option Error :=
  ImportTemplatesFromMap defaultConfig toyParse "app"
    (newBundleOf "app" [("a", "A"), ("b", "\x7b\x7b"), ("c", "C")] emptyHeap).1 ["a", "b", "c"]
    ["app/a"] (fun _ => ["app/a"])
    (NewTemplateSet, (newBundleOf "app" [("a", "A"), ("b", "\x7b\x7b"), ("c", "C")] emptyHeap).2)

/-- The import of `views/home` and `partials/footer` into `app` on a new registry. -/
def homeFooterImport : (TemplateSet String ToyBytes × Heap) × Option Error :=
  ImportTemplatesFromMap defaultConfig toyParse "app"
    (newBundleOf "app"
      [("views/home", "Hello \x7b\x7b.Name\x7d\x7d"), ("partials/footer", "© \x7b\x7b.Year\x7d\x7d")] emptyHeap).1
    ["views/home", "partials/footer"]
    ["app/views/home", "app/partials/footer"]
    (fun _ => ["app/partials/footer", "app/views/home"])
    (NewTemplateSet, (newBundleOf "app"
      [("views/home", "Hello \x7b\x7b.Name\x7d\x7d"), ("partials/footer", "© \x7b\x7b.Year\x7d\x7d")] emptyHeap).2)

/-- The import of `views/home` with the text `Hello` into `app` on a new registry. -/
def firstHomeImport : (TemplateSet String ToyBytes × Heap) × Option Error :=
  ImportTemplatesFromMap defaultConfig toyParse "app"
    (newBundleOf "app" [("views/home", "Hello")] emptyHeap).1 ["views/home"]
    ["app/views/home"] (fun _ => ["app/views/home"])
    (NewTemplateSet, (newBundleOf "app" [("views/home", "Hello")] emptyHeap).2)

/-- The following import of `views/home` with the text `Goodbye` into `app`, from a
second bundle. -/
def secondHomeImport : (TemplateSet String ToyBytes × Heap) × Option Error :=
  ImportTemplatesFromMap defaultConfig toyParse "app"
    (newBundleOf "app" [("views/home", "Goodbye")] firstHomeImport.1.2).1 ["views/home"]
    ["app/views/home"] (fun _ => ["app/views/home"])
    (firstHomeImport.1.1, (newBundleOf "app" [("views/home", "Goodbye")] firstHomeImport.1.2).2)

/-- The registry left by the failed import `threeItemImport`, persisted with the toy
codec. -/
def persistedPartial : TemplateSet String ToyBytes × Option Error :=
  PersistTemplateBundleToDisk toyEnc true "bundles" (fun _ => none)
    threeItemImport.1.1 threeItemImport.1.2

/-- The registry left by `homeFooterImport`, persisted with the toy codec. -/
def persistedHomeFooter : TemplateSet String ToyBytes × Option Error :=
  PersistTemplateBundleToDisk toyEnc true "bundles" (fun _ => none)
    homeFooterImport.1.1 homeFooterImport.1.2

/-- No member of the table has been executed. -/
def NoneEscaped {Tree : Type} (ms : GoMap (Template Tree)) : Prop :=
  ∀ k M, ms k = some M → M.html.escaped = false

/-! ## Lemmas on strings and maps -/

theorem hasPrefix_append (p s : String) : HasPrefix (p ++ s) p = true := by
  simp [HasPrefix, String.data_append]

/-! ## The association pass -/

theorem extends_refl {Tree : Type} (A : Template Tree) : Extends A A :=
  ⟨rfl, rfl, rfl, rfl, rfl, fun _ _ h => h⟩

theorem extends_trans {Tree : Type} {A B C : Template Tree} (h1 : Extends A B)
    (h2 : Extends B C) : Extends A C := by
  refine ⟨h2.1.trans h1.1, h2.2.1.trans h1.2.1, h2.2.2.1.trans h1.2.2.1,
    h2.2.2.2.1.trans h1.2.2.2.1, h2.2.2.2.2.1.trans h1.2.2.2.2.1, ?_⟩
  intro n v hv
  exact h2.2.2.2.2.2 n v (h1.2.2.2.2.2 n v hv)

theorem extends_nameWithNamespace {Tree : Type} (cfg : Config) {A B : Template Tree}
    (h : Extends A B) : B.NameWithNamespace cfg = A.NameWithNamespace cfg := by
  obtain ⟨a1, a2, a3, -⟩ := h
  simp [Template.NameWithNamespace, Template.NameWithPrefix, a1, a2, a3]

theorem grows_refl {Tree : Type} (ms : GoMap (Template Tree)) : Grows ms ms :=
  ⟨fun _ h => h, fun _ A h => ⟨A, h, extends_refl A⟩⟩

theorem grows_trans {Tree : Type} {ms ms1 ms2 : GoMap (Template Tree)} (h1 : Grows ms ms1)
    (h2 : Grows ms1 ms2) : Grows ms ms2 := by
  refine ⟨fun k hk => h2.1 k (h1.1 k hk), fun k A hk => ?_⟩
  obtain ⟨B, hB, hAB⟩ := h1.2 k A hk
  obtain ⟨C, hC, hBC⟩ := h2.2 k B hB
  exact ⟨C, hC, extends_trans hAB hBC⟩

theorem grows_back {Tree : Type} {ms ms1 : GoMap (Template Tree)} (h : Grows ms ms1)
    {k : String} {B : Template Tree} (hB : ms1 k = some B) :
    ∃ A, ms k = some A ∧ Extends A B := by
  cases hA : ms k with
  | none => rw [h.1 k hA] at hB; cases hB
  | some A =>
    obtain ⟨B1, hB1, hAB⟩ := h.2 k A hA
    rw [hB] at hB1
    cases hB1
    exact ⟨A, rfl, hAB⟩

theorem resolves_of_grows {Tree : Type} (cfg : Config) {ms ms1 : GoMap (Template Tree)}
    (h : Grows ms ms1) {tk mk : String} (hr : Resolves cfg ms tk mk) :
    Resolves cfg ms1 tk mk := by
  intro T1 M1 hT1 hM1
  obtain ⟨T, hT, hTT⟩ := grows_back h hT1
  obtain ⟨M, hM, hMM⟩ := grows_back h hM1
  have h0 := hr T M hT hM
  rw [extends_nameWithNamespace cfg hTT]
  simp only [HtmlTemplate.Lookup] at h0 ⊢
  cases hv : M.html.set (T.NameWithNamespace cfg) with
  | none => rw [hv] at h0; cases h0
  | some v => rw [hMM.2.2.2.2.2 _ v hv]; rfl

theorem associate_spec {Tree : Type} (cfg : Config) (ms : GoMap (Template Tree))
    (tk mk : String) :
    Grows ms (associate cfg ms tk mk).1 ∧
      ((associate cfg ms tk mk).2 = none → Resolves cfg (associate cfg ms tk mk).1 tk mk) ∧
      (Resolves cfg ms tk mk → associate cfg ms tk mk = (ms, none)) := by
  unfold associate
  cases hT : ms tk with
  | none =>
    refine ⟨grows_refl ms, fun _ => ?_, fun _ => rfl⟩
    intro T M h1; simp [hT] at h1
  | some T =>
    cases hM : ms mk with
    | none =>
      refine ⟨grows_refl ms, fun _ => ?_, fun _ => rfl⟩
      intro T1 M h1 h2; simp [hM] at h2
    | some M =>
      cases hv : M.html.set (T.NameWithNamespace cfg) with
      | some v =>
        have hl : (M.html.Lookup (T.NameWithNamespace cfg)).isNone = false := by
          simp [HtmlTemplate.Lookup, hv]
        simp only [hl]
        refine ⟨grows_refl ms, fun _ => ?_, fun _ => rfl⟩
        intro T1 M1 h1 h2
        simp only [Bool.false_eq_true, if_false] at h1 h2
        rw [hT] at h1; rw [hM] at h2; cases h1; cases h2
        simp [HtmlTemplate.Lookup, hv]
      | none =>
        have hl : (M.html.Lookup (T.NameWithNamespace cfg)).isNone = true := by
          simp [HtmlTemplate.Lookup, hv]
        have hnr : ¬ Resolves cfg ms tk mk := by
          intro hr
          have := hr T M hT hM
          simp [HtmlTemplate.Lookup, hv] at this
        simp only [hl, if_true, HtmlTemplate.AddParseTree]
        cases he : M.html.escaped with
        | true =>
          simp only [if_true]
          exact ⟨grows_refl ms, fun h => by simp at h, fun hr => absurd hr hnr⟩
        | false =>
          simp only [Bool.false_eq_true, if_false]
          refine ⟨⟨fun k hk => ?_, fun k A hk => ?_⟩, fun _ => ?_, fun hr => absurd hr hnr⟩
          · have : k ≠ mk := by rintro rfl; rw [hM] at hk; cases hk
            simp [mapPut, this, hk]
          · by_cases hkm : k = mk
            · subst hkm
              rw [hM] at hk; cases hk
              refine ⟨{ M with html := { M.html with
                  set := mapPut M.html.set (T.NameWithNamespace cfg) T.html.tree } },
                by simp [mapPut, he], rfl, rfl, rfl, rfl, rfl, fun n v hn => ?_⟩
              by_cases hnn : n = T.NameWithNamespace cfg
              · subst hnn; rw [hv] at hn; cases hn
              · simp [mapPut, hnn, hn]
            · exact ⟨A, by simp [mapPut, hkm, hk], extends_refl A⟩
          · intro T1 M1 h1 h2
            simp only [mapPut, if_true] at h2
            cases h2
            have hT1 : T1.NameWithNamespace cfg = T.NameWithNamespace cfg := by
              by_cases htm : tk = mk
              · subst htm
                simp only [mapPut, if_true] at h1
                cases h1
                rw [hT] at hM; cases hM
                simp [Template.NameWithNamespace, Template.NameWithPrefix]
              · simp only [mapPut, htm, if_false] at h1
                rw [hT] at h1; cases h1; rfl
            simp [HtmlTemplate.Lookup, hT1, mapPut]

theorem associateInner_spec {Tree : Type} (cfg : Config) (tk : String) (ord : List String) :
    ∀ ms : GoMap (Template Tree),
      Grows ms (associateInner cfg tk ord ms).1 ∧
        ((associateInner cfg tk ord ms).2 = none →
          ∀ mk, mk ∈ ord → Resolves cfg (associateInner cfg tk ord ms).1 tk mk) ∧
        ((∀ mk, mk ∈ ord → Resolves cfg ms tk mk) → associateInner cfg tk ord ms = (ms, none)) := by
  induction ord with
  | nil =>
    intro ms
    exact ⟨grows_refl ms, fun _ mk h => absurd h (List.not_mem_nil _), fun _ => rfl⟩
  | cons mk rest ih =>
    intro ms
    obtain ⟨hg, hr, hfix⟩ := associate_spec cfg ms tk mk
    unfold associateInner
    cases hstep : associate cfg ms tk mk with
    | mk ms1 err =>
      rw [hstep] at hg hr hfix
      cases err with
      | some e =>
        refine ⟨hg, fun h => by simp at h, fun hall => ?_⟩
        have := hfix (hall mk (List.mem_cons_self _ _))
        simp at this
      | none =>
        obtain ⟨ihg, ihr, ihfix⟩ := ih ms1
        refine ⟨grows_trans hg ihg, fun hnone x hx => ?_, fun hall => ?_⟩
        · rcases List.mem_cons.1 hx with rfl | hx
          · exact resolves_of_grows cfg ihg (hr rfl)
          · exact ihr hnone x hx
        · have h1 := hfix (hall mk (List.mem_cons_self _ _))
          simp only [Prod.mk.injEq, and_true] at h1
          subst h1
          exact ihfix (fun x hx => hall x (List.mem_cons_of_mem _ hx))

theorem associateOuter_spec {Tree : Type} (cfg : Config) (inner : String → List String)
    (outer : List String) :
    ∀ ms : GoMap (Template Tree),
      Grows ms (associateOuter cfg inner outer ms).1 ∧
        ((associateOuter cfg inner outer ms).2 = none →
          ∀ tk, tk ∈ outer → ∀ mk, mk ∈ inner tk →
            Resolves cfg (associateOuter cfg inner outer ms).1 tk mk) ∧
        ((∀ tk mk, Resolves cfg ms tk mk) → associateOuter cfg inner outer ms = (ms, none)) := by
  induction outer with
  | nil =>
    intro ms
    exact ⟨grows_refl ms, fun _ tk h => absurd h (List.not_mem_nil _), fun _ => rfl⟩
  | cons tk rest ih =>
    intro ms
    obtain ⟨hg, hr, hfix⟩ := associateInner_spec cfg tk (inner tk) ms
    unfold associateOuter
    cases hstep : associateInner cfg tk (inner tk) ms with
    | mk ms1 err =>
      rw [hstep] at hg hr hfix
      cases err with
      | some e =>
        refine ⟨hg, fun h => by simp at h, fun hall => ?_⟩
        have := hfix (fun mk _ => hall tk mk)
        simp at this
      | none =>
        obtain ⟨ihg, ihr, ihfix⟩ := ih ms1
        refine ⟨grows_trans hg ihg, fun hnone x hx y hy => ?_, fun hall => ?_⟩
        · rcases List.mem_cons.1 hx with rfl | hx
          · exact resolves_of_grows cfg ihg (hr rfl y hy)
          · exact ihr hnone x hx y hy
        · have h1 := hfix (fun mk _ => hall tk mk)
          simp only [Prod.mk.injEq, and_true] at h1
          subst h1
          exact ihfix hall

/-! ## The import loop -/

theorem key_injective (ns a b : String) (h : ns ++ "/" ++ a = ns ++ "/" ++ b) : a = b := by
  have h1 := congrArg String.data h
  simp only [String.data_append, List.append_assoc] at h1
  exact String.ext (List.append_cancel_left (List.append_cancel_left h1))

theorem mergeItems_self (m : GoMap String) : mergeItems m m = m := by
  funext k
  unfold mergeItems
  cases h : m k <;> simp [h]

theorem addItems_items_same (e b : Nat) (h : Heap) :
    ((addItems e (h.bundles b).items h).bundles b).items = (h.bundles b).items := by
  unfold addItems
  by_cases hb : b = e
  · subst hb
    simp [mergeItems_self]
  · simp [Function.update, hb]

theorem importItems_nil {Tree Bytes : Type} (cfg : Config)
    (parse : String → String → Except Error (Tree × List (String × Tree)))
    (ns : String) (bundle : Nat) (s : TemplateSet Tree Bytes × Heap) :
    importItems cfg parse ns bundle [] s = (s, none) := by
  cases s; rfl

theorem importItems_cons_absent {Tree Bytes : Type} (cfg : Config)
    (parse : String → String → Except Error (Tree × List (String × Tree)))
    (ns : String) (bundle : Nat) (name : String) (rest : List String)
    (t : TemplateSet Tree Bytes) (h : Heap) (hit : (h.bundles bundle).items name = none) :
    importItems cfg parse ns bundle (name :: rest) (t, h) =
      importItems cfg parse ns bundle rest (t, h) := by
  simp [importItems, hit]

theorem importItems_cons_error {Tree Bytes : Type} (cfg : Config)
    (parse : String → String → Except Error (Tree × List (String × Tree)))
    (ns : String) (bundle : Nat) (name text : String) (rest : List String)
    (t : TemplateSet Tree Bytes) (h : Heap) (err : Error)
    (hit : (h.bundles bundle).items name = some text)
    (hp : parseTemplate parse name text = .error err) :
    importItems cfg parse ns bundle (name :: rest) (t, h) = ((t, h), some err) := by
  simp [importItems, hit, hp]

theorem importItems_cons_fresh {Tree Bytes : Type} (cfg : Config)
    (parse : String → String → Except Error (Tree × List (String × Tree)))
    (ns : String) (bundle : Nat) (name text : String) (rest : List String)
    (t : TemplateSet Tree Bytes) (h : Heap) (tpl : HtmlTemplate Tree)
    (hit : (h.bundles bundle).items name = some text)
    (hp : parseTemplate parse name text = .ok tpl) (hn : t.namespaces ns = none) :
    importItems cfg parse ns bundle (name :: rest) (t, h) =
      importItems cfg parse ns bundle rest
        (⟨mapPut t.namespaces ns bundle,
          mapPut t.members (ns ++ "/" ++ name) ⟨tpl, ns, classify cfg name⟩,
          t.binaryBundle⟩, h) := by
  simp [importItems, hit, hp, hn]

theorem importItems_cons_existing {Tree Bytes : Type} (cfg : Config)
    (parse : String → String → Except Error (Tree × List (String × Tree)))
    (ns : String) (bundle : Nat) (name text : String) (rest : List String)
    (t : TemplateSet Tree Bytes) (h : Heap) (tpl : HtmlTemplate Tree) (existing : Nat)
    (hit : (h.bundles bundle).items name = some text)
    (hp : parseTemplate parse name text = .ok tpl) (hn : t.namespaces ns = some existing) :
    importItems cfg parse ns bundle (name :: rest) (t, h) =
      importItems cfg parse ns bundle rest
        (⟨t.namespaces, mapPut t.members (ns ++ "/" ++ name) ⟨tpl, ns, classify cfg name⟩,
          t.binaryBundle⟩, addItems existing (h.bundles bundle).items h) := by
  simp [importItems, hit, hp, hn]

theorem importMembers_cons_absent {Tree : Type} (cfg : Config)
    (parse : String → String → Except Error (Tree × List (String × Tree)))
    (ns : String) (items : GoMap String) (name : String) (rest : List String)
    (ms : GoMap (Template Tree)) (hit : items name = none) :
    importMembers cfg parse ns items (name :: rest) ms =
      importMembers cfg parse ns items rest ms := by
  simp [importMembers, hit]

theorem importMembers_cons_error {Tree : Type} (cfg : Config)
    (parse : String → String → Except Error (Tree × List (String × Tree)))
    (ns : String) (items : GoMap String) (name text : String) (rest : List String)
    (ms : GoMap (Template Tree)) (err : Error) (hit : items name = some text)
    (hp : parseTemplate parse name text = .error err) :
    importMembers cfg parse ns items (name :: rest) ms = (ms, some err) := by
  simp [importMembers, hit, hp]

theorem importMembers_cons_ok {Tree : Type} (cfg : Config)
    (parse : String → String → Except Error (Tree × List (String × Tree)))
    (ns : String) (items : GoMap String) (name text : String) (rest : List String)
    (ms : GoMap (Template Tree)) (tpl : HtmlTemplate Tree) (hit : items name = some text)
    (hp : parseTemplate parse name text = .ok tpl) :
    importMembers cfg parse ns items (name :: rest) ms =
      importMembers cfg parse ns items rest
        (mapPut ms (ns ++ "/" ++ name) ⟨tpl, ns, classify cfg name⟩) := by
  simp [importMembers, hit, hp]

theorem importItems_members {Tree Bytes : Type} (cfg : Config)
    (parse : String → String → Except Error (Tree × List (String × Tree)))
    (ns : String) (bundle : Nat) (order : List String) :
    ∀ (t : TemplateSet Tree Bytes) (h : Heap),
      (importItems cfg parse ns bundle order (t, h)).1.1.members =
          (importMembers cfg parse ns (h.bundles bundle).items order t.members).1 ∧
        (importItems cfg parse ns bundle order (t, h)).2 =
          (importMembers cfg parse ns (h.bundles bundle).items order t.members).2 ∧
        (importItems cfg parse ns bundle order (t, h)).1.1.binaryBundle = t.binaryBundle := by
  induction order with
  | nil => intro t h; exact ⟨rfl, rfl, rfl⟩
  | cons name rest ih =>
    intro t h
    cases hit : (h.bundles bundle).items name with
    | none =>
      rw [importItems_cons_absent _ _ _ _ _ _ _ _ hit, importMembers_cons_absent _ _ _ _ _ _ _ hit]
      exact ih t h
    | some text =>
      cases hp : parseTemplate parse name text with
      | error err =>
        rw [importItems_cons_error _ _ _ _ _ _ _ _ _ _ hit hp,
          importMembers_cons_error _ _ _ _ _ _ _ _ _ hit hp]
        exact ⟨rfl, rfl, rfl⟩
      | ok tpl =>
        rw [importMembers_cons_ok _ _ _ _ _ _ _ _ _ hit hp]
        cases hn : t.namespaces ns with
        | none =>
          rw [importItems_cons_fresh _ _ _ _ _ _ _ _ _ _ hit hp hn]
          exact ih _ h
        | some existing =>
          rw [importItems_cons_existing _ _ _ _ _ _ _ _ _ _ _ hit hp hn]
          have := ih ⟨t.namespaces,
            mapPut t.members (ns ++ "/" ++ name) ⟨tpl, ns, classify cfg name⟩, t.binaryBundle⟩
            (addItems existing (h.bundles bundle).items h)
          rw [addItems_items_same] at this
          exact this

theorem importMembers_other {Tree : Type} (cfg : Config)
    (parse : String → String → Except Error (Tree × List (String × Tree)))
    (ns : String) (items : GoMap String) (order : List String) (key : String)
    (hkey : ∀ n, n ∈ order → key ≠ ns ++ "/" ++ n) :
    ∀ ms : GoMap (Template Tree),
      (importMembers cfg parse ns items order ms).1 key = ms key := by
  induction order with
  | nil => intro ms; rfl
  | cons name rest ih =>
    intro ms
    have ih1 := ih (fun n hn => hkey n (List.mem_cons_of_mem _ hn))
    cases hit : items name with
    | none => rw [importMembers_cons_absent _ _ _ _ _ _ _ hit]; exact ih1 ms
    | some text =>
      cases hp : parseTemplate parse name text with
      | error err => rw [importMembers_cons_error _ _ _ _ _ _ _ _ _ hit hp]
      | ok tpl =>
        rw [importMembers_cons_ok _ _ _ _ _ _ _ _ _ hit hp, ih1]
        simp [mapPut, hkey name (List.mem_cons_self _ _)]

theorem importMembers_get {Tree : Type} (cfg : Config)
    (parse : String → String → Except Error (Tree × List (String × Tree)))
    (ns : String) (items : GoMap String) (order : List String) (hnd : order.Nodup) :
    ∀ ms : GoMap (Template Tree), (importMembers cfg parse ns items order ms).2 = none →
      ∀ n text, n ∈ order → items n = some text →
        ∃ tpl, parseTemplate parse n text = .ok tpl ∧
          (importMembers cfg parse ns items order ms).1 (ns ++ "/" ++ n) =
            some { html := tpl, Namespace := ns, templateType := classify cfg n } := by
  induction order with
  | nil => intro ms _ n text hn; cases hn
  | cons name rest ih =>
    intro ms
    have hnd1 := (List.nodup_cons.1 hnd)
    cases hit : items name with
    | none =>
      rw [importMembers_cons_absent _ _ _ _ _ _ _ hit]
      intro hnone n text hn hi
      rcases List.mem_cons.1 hn with rfl | hn
      · rw [hit] at hi; cases hi
      · exact ih hnd1.2 ms hnone n text hn hi
    | some text0 =>
      cases hp : parseTemplate parse name text0 with
      | error err =>
        rw [importMembers_cons_error _ _ _ _ _ _ _ _ _ hit hp]
        intro hnone; simp at hnone
      | ok tpl =>
        rw [importMembers_cons_ok _ _ _ _ _ _ _ _ _ hit hp]
        intro hnone n text hn hi
        rcases List.mem_cons.1 hn with rfl | hn
        · rw [hit] at hi; cases hi
          refine ⟨tpl, hp, ?_⟩
          rw [importMembers_other]
          · simp [mapPut]
          · intro m hm heq
            have := key_injective ns _ _ heq
            subst this
            exact hnd1.1 hm
        · exact ih hnd1.2 _ hnone n text hn hi

theorem importMembers_append {Tree : Type} (cfg : Config)
    (parse : String → String → Except Error (Tree × List (String × Tree)))
    (ns : String) (items : GoMap String) (pre post : List String) :
    ∀ ms : GoMap (Template Tree),
      importMembers cfg parse ns items (pre ++ post) ms =
        match importMembers cfg parse ns items pre ms with
        | (ms1, some err) => (ms1, some err)
        | (ms1, none) => importMembers cfg parse ns items post ms1 := by
  induction pre with
  | nil => intro ms; rfl
  | cons name rest ih =>
    intro ms
    simp only [List.cons_append]
    cases hit : items name with
    | none =>
      rw [importMembers_cons_absent _ _ _ _ _ _ _ hit, importMembers_cons_absent _ _ _ _ _ _ _ hit]
      exact ih ms
    | some text =>
      cases hp : parseTemplate parse name text with
      | error err =>
        rw [importMembers_cons_error _ _ _ _ _ _ _ _ _ hit hp,
          importMembers_cons_error _ _ _ _ _ _ _ _ _ hit hp]
      | ok tpl =>
        rw [importMembers_cons_ok _ _ _ _ _ _ _ _ _ hit hp,
          importMembers_cons_ok _ _ _ _ _ _ _ _ _ hit hp]
        exact ih _

theorem importMembers_ok {Tree : Type} (cfg : Config)
    (parse : String → String → Except Error (Tree × List (String × Tree)))
    (ns : String) (items : GoMap String) (order : List String)
    (hall : ∀ n text, n ∈ order → items n = some text → ∃ r, parse n text = .ok r) :
    ∀ ms : GoMap (Template Tree), (importMembers cfg parse ns items order ms).2 = none := by
  induction order with
  | nil => intro ms; rfl
  | cons name rest ih =>
    intro ms
    have ih1 := ih (fun n text hn => hall n text (List.mem_cons_of_mem _ hn))
    cases hit : items name with
    | none => rw [importMembers_cons_absent _ _ _ _ _ _ _ hit]; exact ih1 ms
    | some text =>
      obtain ⟨r, hr⟩ := hall name text (List.mem_cons_self _ _) hit
      have hp : parseTemplate parse name text =
          .ok ⟨name, r.1, mapPut (mapOfList r.2) name r.1, false⟩ := by
        simp [parseTemplate, hr]
      rw [importMembers_cons_ok _ _ _ _ _ _ _ _ _ hit hp]
      exact ih1 _

/-! ## Visit orders -/

theorem isKeyRangeOf_mapEmpty {V : Type} : IsKeyRangeOf (mapEmpty : GoMap V) [] :=
  ⟨List.nodup_nil, fun k => by simp [mapEmpty]⟩

theorem isKeyRangeOf_mapPut {V : Type} {m : GoMap V} {ord : List String} (k : String) (v : V)
    (h : IsKeyRangeOf m ord) (hk : m k = none) : IsKeyRangeOf (mapPut m k v) (k :: ord) := by
  refine ⟨List.nodup_cons.2 ⟨fun hmem => ?_, h.1⟩, fun x => ?_⟩
  · have := (h.2 k).1 hmem
    simp [hk] at this
  · by_cases hx : x = k
    · simp [mapPut, hx]
    · simp [mapPut, hx, h.2 x]

theorem isKeyRangeOf_grows {Tree : Type} {ms ms1 : GoMap (Template Tree)} {ord : List String}
    (hg : Grows ms ms1) (h : IsKeyRangeOf ms ord) : IsKeyRangeOf ms1 ord := by
  refine ⟨h.1, fun k => ?_⟩
  rw [h.2 k]
  cases hk : ms k with
  | none => simp [hg.1 k hk]
  | some A =>
    obtain ⟨B, hB, -⟩ := hg.2 k A hk
    simp [hB]

theorem isKeyRangeOf_perm {V : Type} {m : GoMap V} {ord ord1 : List String}
    (hp : ord.Perm ord1) (h : IsKeyRangeOf m ord) : IsKeyRangeOf m ord1 :=
  ⟨hp.nodup_iff.1 h.1, fun k => by rw [← h.2 k]; exact hp.symm.mem_iff⟩

theorem isKeyRangeOf_afterFirstImport :
    IsKeyRangeOf afterFirstImport.1.1.members ["n1/partials/x"] := by
  have h0 : IsKeyRangeOf (mapPut (mapEmpty : GoMap (Template String)) "n1/partials/x"
      ⟨⟨"partials/x", "X", mapPut (mapOfList []) "partials/x" "X", false⟩, "n1", TemplatePartial⟩)
      ["n1/partials/x"] := isKeyRangeOf_mapPut _ _ isKeyRangeOf_mapEmpty rfl
  have hg : Grows (mapPut (mapEmpty : GoMap (Template String)) "n1/partials/x"
      ⟨⟨"partials/x", "X", mapPut (mapOfList []) "partials/x" "X", false⟩, "n1", TemplatePartial⟩)
      afterFirstImport.1.1.members :=
    (associateOuter_spec defaultConfig (fun _ => ["n1/partials/x"]) ["n1/partials/x"] _).1
  exact isKeyRangeOf_grows hg h0

theorem isKeyRangeOf_afterSecondLoop :
    IsKeyRangeOf afterSecondLoop.1.1.members ["n2/views/y", "n1/partials/x"] :=
  isKeyRangeOf_mapPut "n2/views/y" _ isKeyRangeOf_afterFirstImport
    (Option.isNone_iff_eq_none.1 (by decide))

/-! ## Consequences of a successful association pass -/

theorem resolves_all_of_run {Tree : Type} (cfg : Config) (outer : List String)
    (inner : String → List String) (ms ms1 : GoMap (Template Tree))
    (houter : IsKeyRangeOf ms outer) (hinner : ∀ tk, IsKeyRangeOf ms (inner tk))
    (hrun : associateOuter cfg inner outer ms = (ms1, none)) :
    ∀ tk mk, Resolves cfg ms1 tk mk := by
  intro a b A B hA hB
  obtain ⟨hg, hr, -⟩ := associateOuter_spec cfg inner outer ms
  rw [hrun] at hg hr
  obtain ⟨A0, hA0, -⟩ := grows_back hg hA
  obtain ⟨B0, hB0, -⟩ := grows_back hg hB
  have ha : a ∈ outer := (houter.2 a).2 (by simp [hA0])
  have hb : b ∈ inner a := ((hinner a).2 b).2 (by simp [hB0])
  exact hr rfl a ha b hb A B hA hB

theorem associateOuter_of_run {Tree Bytes : Type} (cfg : Config) (outer : List String)
    (inner : String → List String) (t t1 : TemplateSet Tree Bytes)
    (hrun : MakeAllAssociations cfg outer inner t = (t1, none)) :
    associateOuter cfg inner outer t.members = (t1.members, none) ∧
      t1.namespaces = t.namespaces ∧ t1.binaryBundle = t.binaryBundle := by
  unfold MakeAllAssociations at hrun
  have e1 : (associateOuter cfg inner outer t.members).1 = t1.members :=
    congrArg (fun p => p.1.members) hrun
  have e2 : (associateOuter cfg inner outer t.members).2 = none := congrArg Prod.snd hrun
  have e3 : t.namespaces = t1.namespaces := congrArg (fun p => p.1.namespaces) hrun
  have e4 : t.binaryBundle = t1.binaryBundle := congrArg (fun p => p.1.binaryBundle) hrun
  exact ⟨Prod.ext e1 e2, e3.symm, e4.symm⟩

/-! ## Bundles, prefixes and the import call -/

theorem mergeItems_mapEmpty (m : GoMap String) : mergeItems mapEmpty m = m := by
  funext k
  unfold mergeItems
  cases h : m k <;> simp [h, mapEmpty]

theorem newBundleOf_items (nsName : String) (l : List (String × String)) (h : Heap) :
    ((newBundleOf nsName l h).2.bundles (newBundleOf nsName l h).1).items = mapOfList l := by
  simp [newBundleOf, addItems, NewTemplateBundle, mergeItems_mapEmpty]

theorem isKeyRangeOf_mapOfList {V : Type} (l : List (String × V))
    (hnd : (l.map Prod.fst).Nodup) : IsKeyRangeOf (mapOfList l) (l.map Prod.fst) := by
  induction l with
  | nil => exact isKeyRangeOf_mapEmpty
  | cons p rest ih =>
    obtain ⟨k, v⟩ := p
    simp only [List.map_cons, List.nodup_cons] at hnd
    have ih1 := ih hnd.2
    have hk : mapOfList rest k = none := by
      cases hv : mapOfList rest k with
      | none => rfl
      | some v1 => exact absurd ((ih1.2 k).2 (by simp [hv])) hnd.1
    exact isKeyRangeOf_mapPut k v ih1 hk

theorem isKeyRangeOf_newBundleOf (nsName : String) (l : List (String × String)) (h : Heap)
    (hnd : (l.map Prod.fst).Nodup) :
    IsKeyRangeOf ((newBundleOf nsName l h).2.bundles (newBundleOf nsName l h).1).items
      (l.map Prod.fst) := by
  rw [newBundleOf_items]
  exact isKeyRangeOf_mapOfList l hnd

theorem prefixName_classify (cfg : Config) (name : String) :
    HasPrefix name (prefixName cfg (classify cfg name)) = true := by
  have hempty : HasPrefix name "" = true := by simp [HasPrefix]
  unfold classify
  split
  · simpa [prefixName, TemplatePartial, TemplateRegular]
  split
  · simpa [prefixName, TemplateView, TemplatePartial, TemplateRegular, TemplateLayout,
      TemplateComponent, TemplateDialog]
  split
  · simpa [prefixName, TemplateView, TemplatePartial, TemplateRegular, TemplateLayout,
      TemplateComponent, TemplateDialog]
  split
  · simpa [prefixName, TemplateView, TemplatePartial, TemplateRegular, TemplateLayout,
      TemplateComponent, TemplateDialog]
  split
  · simpa [prefixName, TemplateView, TemplatePartial, TemplateRegular, TemplateLayout,
      TemplateComponent, TemplateDialog, TemplateForm]
  split
  · simpa [prefixName, TemplateView, TemplatePartial, TemplateRegular, TemplateLayout,
      TemplateComponent, TemplateDialog, TemplateForm]
  · simpa [prefixName, TemplateRegular]

theorem applyPrefix_classify (cfg : Config) (name : String) :
    applyPrefix cfg (classify cfg name) name = name := by
  simp [applyPrefix, prefixName_classify]

theorem parseTemplate_name {Tree : Type}
    (parse : String → String → Except Error (Tree × List (String × Tree)))
    (name text : String) (tpl : HtmlTemplate Tree)
    (h : parseTemplate parse name text = .ok tpl) : tpl.name = name := by
  unfold parseTemplate at h
  cases hp : parse name text with
  | error e => rw [hp] at h; cases h
  | ok r =>
    rw [hp] at h
    cases h
    rfl

theorem ImportTemplatesFromMap_of_error {Tree Bytes : Type} (cfg : Config)
    (parse : String → String → Except Error (Tree × List (String × Tree)))
    (ns : String) (bundle : Nat) (order outer : List String) (inner : String → List String)
    (s : TemplateSet Tree Bytes × Heap) (err : Error)
    (h : (importItems cfg parse ns bundle order s).2 = some err) :
    ImportTemplatesFromMap cfg parse ns bundle order outer inner s =
      ((importItems cfg parse ns bundle order s).1, some err) := by
  unfold ImportTemplatesFromMap
  cases hr : importItems cfg parse ns bundle order s with
  | mk s1 e =>
    rw [hr] at h
    cases h
    rfl

theorem ImportTemplatesFromMap_of_ok {Tree Bytes : Type} (cfg : Config)
    (parse : String → String → Except Error (Tree × List (String × Tree)))
    (ns : String) (bundle : Nat) (order outer : List String) (inner : String → List String)
    (s : TemplateSet Tree Bytes × Heap)
    (h : (importItems cfg parse ns bundle order s).2 = none) :
    ImportTemplatesFromMap cfg parse ns bundle order outer inner s =
      (((MakeAllAssociations cfg outer inner (importItems cfg parse ns bundle order s).1.1).1,
        (importItems cfg parse ns bundle order s).1.2), none) := by
  unfold ImportTemplatesFromMap
  cases hr : importItems cfg parse ns bundle order s with
  | mk s1 e =>
    rw [hr] at h
    cases h
    cases s1
    rfl

theorem ImportTemplatesFromMap_error_iff {Tree Bytes : Type} (cfg : Config)
    (parse : String → String → Except Error (Tree × List (String × Tree)))
    (ns : String) (bundle : Nat) (order outer : List String) (inner : String → List String)
    (s : TemplateSet Tree Bytes × Heap) :
    (ImportTemplatesFromMap cfg parse ns bundle order outer inner s).2 =
      (importItems cfg parse ns bundle order s).2 := by
  cases h : (importItems cfg parse ns bundle order s).2 with
  | none => rw [ImportTemplatesFromMap_of_ok _ _ _ _ _ _ _ _ h]
  | some e => rw [ImportTemplatesFromMap_of_error _ _ _ _ _ _ _ _ _ h]

/-! ## Import of a single item -/

theorem MakeAllAssociations_namespaces {Tree Bytes : Type} (cfg : Config) (outer : List String)
    (inner : String → List String) (t : TemplateSet Tree Bytes) :
    (MakeAllAssociations cfg outer inner t).1.namespaces = t.namespaces := rfl

theorem import_single {Tree Bytes : Type} (cfg : Config)
    (parse : String → String → Except Error (Tree × List (String × Tree)))
    (ns n text : String) (b : Nat) (outer : List String) (inner : String → List String)
    (t : TemplateSet Tree Bytes) (h : Heap) (tree : Tree) (defs : List (String × Tree))
    (hb : (h.bundles b).items = mapPut mapEmpty n text)
    (hp : parse n text = .ok (tree, defs)) :
    (ImportTemplatesFromMap cfg parse ns b [n] outer inner (t, h)).2 = none ∧
    (∃ T, (ImportTemplatesFromMap cfg parse ns b [n] outer inner (t, h)).1.1.members
          (ns ++ "/" ++ n) = some T ∧
        T.Namespace = ns ∧ T.templateType = classify cfg n ∧ T.html.name = n ∧
        T.html.tree = tree ∧
        ∀ x v, mapPut (mapOfList defs) n tree x = some v → T.html.Lookup x = some v) ∧
    rawText (ImportTemplatesFromMap cfg parse ns b [n] outer inner (t, h)).1 ns n = some text ∧
    ∀ k, k ≠ n →
      rawText (ImportTemplatesFromMap cfg parse ns b [n] outer inner (t, h)).1 ns k =
        rawText (t, h) ns k := by
  have hit : (h.bundles b).items n = some text := by simp [hb, mapPut]
  have hpt : parseTemplate parse n text =
      .ok ⟨n, tree, mapPut (mapOfList defs) n tree, false⟩ := by
    simp [parseTemplate, hp]
  have hother : ∀ k, k ≠ n → (h.bundles b).items k = none := by
    intro k hk
    simp [hb, mapPut, hk, mapEmpty]
  cases hn : t.namespaces ns with
  | none =>
    have hloop := importItems_cons_fresh cfg parse ns b n text [] t h _ hit hpt hn
    rw [importItems_nil] at hloop
    have hok : (importItems cfg parse ns b [n] (t, h)).2 = none := by rw [hloop]
    rw [ImportTemplatesFromMap_of_ok _ _ _ _ _ _ _ _ hok, hloop]
    refine ⟨rfl, ?_, ?_, ?_⟩
    · have hput : mapPut t.members (ns ++ "/" ++ n)
          (⟨⟨n, tree, mapPut (mapOfList defs) n tree, false⟩, ns, classify cfg n⟩ :
            Template Tree) (ns ++ "/" ++ n) =
          some ⟨⟨n, tree, mapPut (mapOfList defs) n tree, false⟩, ns, classify cfg n⟩ := by
        simp [mapPut]
      obtain ⟨T, hT, hext⟩ := (associateOuter_spec cfg inner outer
        (mapPut t.members (ns ++ "/" ++ n)
          ⟨⟨n, tree, mapPut (mapOfList defs) n tree, false⟩, ns, classify cfg n⟩)).1.2
        (ns ++ "/" ++ n) _ hput
      exact ⟨T, hT, hext.1, hext.2.1, hext.2.2.1, hext.2.2.2.1, hext.2.2.2.2.2⟩
    · simp [rawText, TemplateSet.Bundle, MakeAllAssociations, mapPut, hit]
    · intro k hk
      simp [rawText, TemplateSet.Bundle, MakeAllAssociations, mapPut, hn, hother k hk]
  | some e =>
    have hloop := importItems_cons_existing cfg parse ns b n text [] t h _ e hit hpt hn
    rw [importItems_nil] at hloop
    have hok : (importItems cfg parse ns b [n] (t, h)).2 = none := by rw [hloop]
    rw [ImportTemplatesFromMap_of_ok _ _ _ _ _ _ _ _ hok, hloop]
    refine ⟨rfl, ?_, ?_, ?_⟩
    · have hput : mapPut t.members (ns ++ "/" ++ n)
          (⟨⟨n, tree, mapPut (mapOfList defs) n tree, false⟩, ns, classify cfg n⟩ :
            Template Tree) (ns ++ "/" ++ n) =
          some ⟨⟨n, tree, mapPut (mapOfList defs) n tree, false⟩, ns, classify cfg n⟩ := by
        simp [mapPut]
      obtain ⟨T, hT, hext⟩ := (associateOuter_spec cfg inner outer
        (mapPut t.members (ns ++ "/" ++ n)
          ⟨⟨n, tree, mapPut (mapOfList defs) n tree, false⟩, ns, classify cfg n⟩)).1.2
        (ns ++ "/" ++ n) _ hput
      exact ⟨T, hT, hext.1, hext.2.1, hext.2.2.1, hext.2.2.2.1, hext.2.2.2.2.2⟩
    · simp [rawText, TemplateSet.Bundle, MakeAllAssociations, hn, addItems, mergeItems, hit]
    · intro k hk
      simp [rawText, TemplateSet.Bundle, MakeAllAssociations, hn, addItems, mergeItems,
        hother k hk]

/-! ## Import into a new namespace and the restore loop -/

theorem addItems_self (b : Nat) (h : Heap) : addItems b (h.bundles b).items h = h := by
  unfold addItems
  rw [mergeItems_self]
  cases h with
  | mk bundles next =>
    simp only [Heap.mk.injEq, and_true]
    exact Function.update_eq_self b bundles

theorem importItems_fresh {Tree Bytes : Type} (cfg : Config)
    (parse : String → String → Except Error (Tree × List (String × Tree)))
    (ns : String) (bundle : Nat) (h : Heap) (order : List String)
    (hall : ∀ n text, n ∈ order → (h.bundles bundle).items n = some text →
      ∃ r, parse n text = .ok r) :
    ∀ t : TemplateSet Tree Bytes, (t.namespaces ns = none ∨ t.namespaces ns = some bundle) →
      (importItems cfg parse ns bundle order (t, h)).2 = none ∧
      (importItems cfg parse ns bundle order (t, h)).1.2 = h ∧
      (∀ x, x ≠ ns →
        (importItems cfg parse ns bundle order (t, h)).1.1.namespaces x = t.namespaces x) ∧
      (t.namespaces ns = some bundle →
        (importItems cfg parse ns bundle order (t, h)).1.1.namespaces ns = some bundle) ∧
      ((importItems cfg parse ns bundle order (t, h)).1.1.namespaces ns = some bundle ∨
        ((importItems cfg parse ns bundle order (t, h)).1.1.namespaces ns = none ∧
          ∀ n, n ∈ order → (h.bundles bundle).items n = none)) := by
  induction order with
  | nil =>
    intro t ht
    rw [importItems_nil]
    refine ⟨rfl, rfl, fun _ _ => rfl, fun hs => hs, ?_⟩
    rcases ht with ht | ht
    · exact Or.inr ⟨ht, fun n hn => absurd hn (List.not_mem_nil _)⟩
    · exact Or.inl ht
  | cons name rest ih =>
    intro t ht
    have ih1 := ih (fun n text hn => hall n text (List.mem_cons_of_mem _ hn))
    cases hit : (h.bundles bundle).items name with
    | none =>
      rw [importItems_cons_absent _ _ _ _ _ _ _ _ hit]
      obtain ⟨i1, i2, i3, i4, i5⟩ := ih1 t ht
      refine ⟨i1, i2, i3, i4, ?_⟩
      rcases i5 with i5 | ⟨i5, i6⟩
      · exact Or.inl i5
      · refine Or.inr ⟨i5, fun n hn => ?_⟩
        rcases List.mem_cons.1 hn with rfl | hn
        · exact hit
        · exact i6 n hn
    | some text =>
      obtain ⟨r, hr⟩ := hall name text (List.mem_cons_self _ _) hit
      have hp : parseTemplate parse name text =
          .ok ⟨name, r.1, mapPut (mapOfList r.2) name r.1, false⟩ := by
        simp [parseTemplate, hr]
      rcases ht with ht | ht
      · rw [importItems_cons_fresh _ _ _ _ _ _ _ _ _ _ hit hp ht]
        have hput : mapPut t.namespaces ns bundle ns = some bundle := by simp [mapPut]
        obtain ⟨i1, i2, i3, i4, -⟩ := ih1 ⟨mapPut t.namespaces ns bundle,
          mapPut t.members (ns ++ "/" ++ name)
            ⟨⟨name, r.1, mapPut (mapOfList r.2) name r.1, false⟩, ns, classify cfg name⟩,
          t.binaryBundle⟩ (Or.inr hput)
        refine ⟨i1, i2, fun x hx => ?_, fun _ => i4 hput, Or.inl (i4 hput)⟩
        rw [i3 x hx]
        simp [mapPut, hx]
      · rw [importItems_cons_existing _ _ _ _ _ _ _ _ _ _ _ hit hp ht, addItems_self]
        obtain ⟨i1, i2, i3, i4, -⟩ := ih1 ⟨t.namespaces,
          mapPut t.members (ns ++ "/" ++ name)
            ⟨⟨name, r.1, mapPut (mapOfList r.2) name r.1, false⟩, ns, classify cfg name⟩,
          t.binaryBundle⟩ (Or.inr ht)
        exact ⟨i1, i2, i3, fun _ => i4 ht, Or.inl (i4 ht)⟩

theorem restoreNamespaces_nil {Tree Bytes : Type} (cfg : Config)
    (parse : String → String → Except Error (Tree × List (String × Tree)))
    (D : GoMap (GoMap String)) (itemOrder : String → List String)
    (outer : String → List String) (inner : String → String → List String)
    (s : TemplateSet Tree Bytes × Heap) :
    restoreNamespaces cfg parse D itemOrder outer inner [] s = (s, none) := by
  cases s; rfl

theorem restoreNamespaces_cons_absent {Tree Bytes : Type} (cfg : Config)
    (parse : String → String → Except Error (Tree × List (String × Tree)))
    (D : GoMap (GoMap String)) (itemOrder : String → List String)
    (outer : String → List String) (inner : String → String → List String)
    (ns : String) (rest : List String) (t : TemplateSet Tree Bytes) (h : Heap)
    (hD : D ns = none) :
    restoreNamespaces cfg parse D itemOrder outer inner (ns :: rest) (t, h) =
      restoreNamespaces cfg parse D itemOrder outer inner rest (t, h) := by
  simp [restoreNamespaces, hD]

theorem restoreNamespaces_cons_ok {Tree Bytes : Type} (cfg : Config)
    (parse : String → String → Except Error (Tree × List (String × Tree)))
    (D : GoMap (GoMap String)) (itemOrder : String → List String)
    (outer : String → List String) (inner : String → String → List String)
    (ns : String) (rest : List String) (t : TemplateSet Tree Bytes) (h : Heap)
    (m : GoMap String) (hD : D ns = some m)
    (hok : (ImportTemplatesFromMap cfg parse ns (NewTemplateBundle ns h).1 (itemOrder ns)
      (outer ns) (inner ns) (t, addItems (NewTemplateBundle ns h).1 m
        (NewTemplateBundle ns h).2)).2 = none) :
    restoreNamespaces cfg parse D itemOrder outer inner (ns :: rest) (t, h) =
      restoreNamespaces cfg parse D itemOrder outer inner rest
        (ImportTemplatesFromMap cfg parse ns (NewTemplateBundle ns h).1 (itemOrder ns)
          (outer ns) (inner ns) (t, addItems (NewTemplateBundle ns h).1 m
            (NewTemplateBundle ns h).2)).1 := by
  cases hr : ImportTemplatesFromMap cfg parse ns (NewTemplateBundle ns h).1 (itemOrder ns)
      (outer ns) (inner ns) (t, addItems (NewTemplateBundle ns h).1 m
        (NewTemplateBundle ns h).2) with
  | mk s1 e =>
    rw [hr] at hok
    cases hok
    simp [restoreNamespaces, hD, hr]

theorem newBundle_filled (ns : String) (m : GoMap String) (h : Heap) :
    (NewTemplateBundle ns h).1 = h.next ∧
      (addItems (NewTemplateBundle ns h).1 m (NewTemplateBundle ns h).2).next = h.next + 1 ∧
      ((addItems (NewTemplateBundle ns h).1 m (NewTemplateBundle ns h).2).bundles
        (NewTemplateBundle ns h).1).items = m ∧
      ∀ b, b ≠ (NewTemplateBundle ns h).1 →
        (addItems (NewTemplateBundle ns h).1 m (NewTemplateBundle ns h).2).bundles b =
          h.bundles b := by
  refine ⟨rfl, rfl, ?_, fun b hb => ?_⟩
  · simp [addItems, NewTemplateBundle, mergeItems_mapEmpty]
  · have hb1 : b ≠ h.next := hb
    simp [addItems, NewTemplateBundle, Function.update, hb1]

theorem import_fresh_step {Tree Bytes : Type} (cfg : Config)
    (parse : String → String → Except Error (Tree × List (String × Tree)))
    (ns : String) (B : Nat) (h2 : Heap) (m : GoMap String) (order outer : List String)
    (inner : String → List String) (t : TemplateSet Tree Bytes)
    (hB : (h2.bundles B).items = m)
    (hparse : ∀ name text, m name = some text → ∃ r, parse name text = .ok r)
    (horder : IsKeyRangeOf m order) (hns : t.namespaces ns = none) :
    (ImportTemplatesFromMap cfg parse ns B order outer inner (t, h2)).2 = none ∧
      (ImportTemplatesFromMap cfg parse ns B order outer inner (t, h2)).1.2 = h2 ∧
      (∀ x, x ≠ ns →
        (ImportTemplatesFromMap cfg parse ns B order outer inner (t, h2)).1.1.namespaces x =
          t.namespaces x) ∧
      (((ImportTemplatesFromMap cfg parse ns B order outer inner (t, h2)).1.1.namespaces ns =
          some B) ∨
        ((ImportTemplatesFromMap cfg parse ns B order outer inner (t, h2)).1.1.namespaces ns =
          none ∧ ∀ name, m name = none)) := by
  have hall : ∀ n text, n ∈ order → (h2.bundles B).items n = some text →
      ∃ r, parse n text = .ok r := by
    intro n text _ hn
    rw [hB] at hn
    exact hparse n text hn
  obtain ⟨l1, l2, l3, -, l5⟩ := importItems_fresh cfg parse ns B h2 order hall t (Or.inl hns)
  rw [ImportTemplatesFromMap_of_ok cfg parse ns B order outer inner (t, h2) l1]
  refine ⟨rfl, l2, fun x hx => ?_, ?_⟩
  · rw [MakeAllAssociations_namespaces]
    exact l3 x hx
  · rw [MakeAllAssociations_namespaces]
    rcases l5 with l5 | ⟨l5, l6⟩
    · exact Or.inl l5
    · refine Or.inr ⟨l5, fun name => ?_⟩
      cases hmn : m name with
      | none => rfl
      | some v =>
        have hin : name ∈ order := (horder.2 name).2 (by simp [hmn])
        have := l6 name hin
        rw [hB, hmn] at this
        cases this

theorem restoreNamespaces_spec {Tree Bytes : Type} (cfg : Config)
    (parse : String → String → Except Error (Tree × List (String × Tree)))
    (D : GoMap (GoMap String)) (itemOrder : String → List String)
    (outer : String → List String) (inner : String → String → List String)
    (hparse : ∀ ns m name text, D ns = some m → m name = some text →
      ∃ r, parse name text = .ok r)
    (hitems : ∀ ns m, D ns = some m → IsKeyRangeOf m (itemOrder ns))
    (order : List String) (hnd : order.Nodup) :
    ∀ (t : TemplateSet Tree Bytes) (h : Heap),
      (∀ ns, ns ∈ order → t.namespaces ns = none) →
      (∀ ns b, t.namespaces ns = some b → b < h.next) →
      (restoreNamespaces cfg parse D itemOrder outer inner order (t, h)).2 = none ∧
      (∀ ns, ns ∈ order → ∀ name,
        rawText (restoreNamespaces cfg parse D itemOrder outer inner order (t, h)).1 ns name =
          (D ns).bind (fun m => m name)) ∧
      (∀ ns, ns ∉ order →
        (restoreNamespaces cfg parse D itemOrder outer inner order (t, h)).1.1.namespaces ns =
          t.namespaces ns) ∧
      (∀ b, b < h.next →
        (restoreNamespaces cfg parse D itemOrder outer inner order (t, h)).1.2.bundles b =
          h.bundles b) ∧
      (∀ ns b,
        (restoreNamespaces cfg parse D itemOrder outer inner order (t, h)).1.1.namespaces ns =
          some b →
        b < (restoreNamespaces cfg parse D itemOrder outer inner order (t, h)).1.2.next) := by
  induction order with
  | nil =>
    intro t h _ hb
    rw [restoreNamespaces_nil]
    exact ⟨rfl, fun ns hns => absurd hns (List.not_mem_nil _), fun _ _ => rfl, fun _ _ => rfl, hb⟩
  | cons ns rest ih =>
    intro t h hfresh hb
    obtain ⟨hnotin, hndrest⟩ := List.nodup_cons.1 hnd
    have hns : t.namespaces ns = none := hfresh ns (List.mem_cons_self _ _)
    cases hD : D ns with
    | none =>
      rw [restoreNamespaces_cons_absent _ _ _ _ _ _ _ _ _ _ hD]
      obtain ⟨i1, i2, i3, i4, i5⟩ := ih hndrest t h
        (fun x hx => hfresh x (List.mem_cons_of_mem _ hx)) hb
      refine ⟨i1, fun x hx name => ?_, fun x hx => ?_, i4, i5⟩
      · rcases List.mem_cons.1 hx with rfl | hx
        · simp [rawText, TemplateSet.Bundle, i3 x hnotin, hns, hD]
        · exact i2 x hx name
      · exact i3 x (fun hmem => hx (List.mem_cons_of_mem _ hmem))
    | some m =>
      obtain ⟨f1, f2, f3, f4⟩ := newBundle_filled ns m h
      obtain ⟨l1, l2, l3, l5⟩ := import_fresh_step cfg parse ns (NewTemplateBundle ns h).1
        (addItems (NewTemplateBundle ns h).1 m (NewTemplateBundle ns h).2) m (itemOrder ns)
        (outer ns) (inner ns) t f3 (fun name text => hparse ns m name text hD)
        (hitems ns m hD) hns
      rw [restoreNamespaces_cons_ok _ _ _ _ _ _ _ _ _ _ m hD l1]
      generalize ImportTemplatesFromMap cfg parse ns (NewTemplateBundle ns h).1 (itemOrder ns)
        (outer ns) (inner ns) (t, addItems (NewTemplateBundle ns h).1 m
          (NewTemplateBundle ns h).2) = R at l1 l2 l3 l5 ⊢
      obtain ⟨⟨t1, h2⟩, e⟩ := R
      simp only at l1 l2 l3 l5 ⊢
      rw [← l2] at f2 f3 f4
      generalize (NewTemplateBundle ns h).1 = B at f1 f3 f4 l5
      subst f1
      have hfresh1 : ∀ x, x ∈ rest → t1.namespaces x = none := by
        intro x hx
        rw [l3 x (fun hxe => hnotin (hxe ▸ hx))]
        exact hfresh x (List.mem_cons_of_mem _ hx)
      have hb1 : ∀ x b, t1.namespaces x = some b → b < h2.next := by
        intro x b hx
        rw [f2]
        by_cases hxe : x = ns
        · subst hxe
          rcases l5 with l5 | ⟨l5, -⟩
          · rw [l5] at hx
            cases hx
            exact Nat.lt_succ_self _
          · rw [l5] at hx; cases hx
        · rw [l3 x hxe] at hx
          exact Nat.lt_succ_of_lt (hb x b hx)
      obtain ⟨i1, i2, i3, i4, i5⟩ := ih hndrest t1 h2 hfresh1 hb1
      refine ⟨i1, fun x hx name => ?_, fun x hx => ?_, fun b hlt => ?_, i5⟩
      · rcases List.mem_cons.1 hx with rfl | hx
        · rw [hD]
          simp only [Option.bind]
          unfold rawText TemplateSet.Bundle
          rw [i3 x hnotin]
          rcases l5 with l5 | ⟨l5, l6⟩
          · rw [l5]
            simp only
            rw [i4 h.next (by rw [f2]; exact Nat.lt_succ_self _), f3]
          · rw [l5]
            simp only
            exact (l6 name).symm
        · exact i2 x hx name
      · have hxne : x ≠ ns := fun hxe => hx (hxe ▸ List.mem_cons_self _ _)
        rw [i3 x (fun hmem => hx (List.mem_cons_of_mem _ hmem)), l3 x hxne]
      · rw [i4 b (by rw [f2]; exact Nat.lt_succ_of_lt hlt), f4 b (Nat.ne_of_lt hlt)]

/-! ## Raw text of a registry -/

theorem rawText_eq_namespaceItems {Tree Bytes : Type} (t : TemplateSet Tree Bytes) (h : Heap)
    (ns name : String) :
    rawText (t, h) ns name = (namespaceItems t h ns).bind (fun m => m name) := by
  unfold rawText TemplateSet.Bundle namespaceItems
  cases t.namespaces ns <;> rfl

theorem isKeyRangeOf_namespaceItems {Tree Bytes : Type} (t : TemplateSet Tree Bytes) (h : Heap)
    (ord : List String) (hk : IsKeyRangeOf t.namespaces ord) :
    IsKeyRangeOf (namespaceItems t h) ord := by
  refine ⟨hk.1, fun k => ?_⟩
  rw [hk.2 k]
  unfold namespaceItems
  cases t.namespaces k <;> rfl

/-! ## Registries without executed members -/

theorem noneEscaped_of_grows {Tree : Type} {ms ms1 : GoMap (Template Tree)}
    (hg : Grows ms ms1) (h : NoneEscaped ms) : NoneEscaped ms1 := by
  intro k M1 hM1
  obtain ⟨M, hM, hext⟩ := grows_back hg hM1
  rw [hext.2.2.2.2.1]
  exact h k M hM

theorem associate_ok_of_noneEscaped {Tree : Type} (cfg : Config)
    (ms : GoMap (Template Tree)) (tk mk : String) (h : NoneEscaped ms) :
    (associate cfg ms tk mk).2 = none := by
  unfold associate
  cases hT : ms tk with
  | none => rfl
  | some T =>
    cases hM : ms mk with
    | none => rfl
    | some M =>
      simp only
      split
      · simp [HtmlTemplate.AddParseTree, h mk M hM]
      · rfl

theorem associateInner_ok_of_noneEscaped {Tree : Type} (cfg : Config) (tk : String)
    (ord : List String) :
    ∀ ms : GoMap (Template Tree), NoneEscaped ms → (associateInner cfg tk ord ms).2 = none := by
  induction ord with
  | nil => intro ms _; rfl
  | cons mk rest ih =>
    intro ms h
    have h1 := associate_ok_of_noneEscaped cfg ms tk mk h
    have hg := (associate_spec cfg ms tk mk).1
    unfold associateInner
    cases hstep : associate cfg ms tk mk with
    | mk ms1 err =>
      rw [hstep] at h1 hg
      cases h1
      exact ih ms1 (noneEscaped_of_grows hg h)

theorem associateOuter_ok_of_noneEscaped {Tree : Type} (cfg : Config)
    (inner : String → List String) (outer : List String) :
    ∀ ms : GoMap (Template Tree), NoneEscaped ms →
      (associateOuter cfg inner outer ms).2 = none := by
  induction outer with
  | nil => intro ms _; rfl
  | cons tk rest ih =>
    intro ms h
    have h1 := associateInner_ok_of_noneEscaped cfg tk (inner tk) ms h
    have hg := (associateInner_spec cfg tk (inner tk) ms).1
    unfold associateOuter
    cases hstep : associateInner cfg tk (inner tk) ms with
    | mk ms1 err =>
      rw [hstep] at h1 hg
      cases h1
      exact ih ms1 (noneEscaped_of_grows hg h)

theorem import_single_members {Tree Bytes : Type} (cfg : Config)
    (parse : String → String → Except Error (Tree × List (String × Tree)))
    (ns n text : String) (b : Nat) (outer : List String) (inner : String → List String)
    (t : TemplateSet Tree Bytes) (h : Heap) (tree : Tree) (defs : List (String × Tree))
    (hb : (h.bundles b).items = mapPut mapEmpty n text)
    (hp : parse n text = .ok (tree, defs)) :
    (ImportTemplatesFromMap cfg parse ns b [n] outer inner (t, h)).1.1.members =
      (associateOuter cfg inner outer (mapPut t.members (ns ++ "/" ++ n)
        ⟨⟨n, tree, mapPut (mapOfList defs) n tree, false⟩, ns, classify cfg n⟩)).1 := by
  have hit : (h.bundles b).items n = some text := by simp [hb, mapPut]
  have hpt : parseTemplate parse n text =
      .ok ⟨n, tree, mapPut (mapOfList defs) n tree, false⟩ := by
    simp [parseTemplate, hp]
  obtain ⟨hm1, hm2, -⟩ := importItems_members cfg parse ns b [n] t h
  rw [importMembers_cons_ok _ _ _ _ _ _ _ _ _ hit hpt] at hm1 hm2
  have hok : (importItems cfg parse ns b [n] (t, h)).2 = none := hm2
  rw [ImportTemplatesFromMap_of_ok _ _ _ _ _ _ _ _ hok]
  show (associateOuter cfg inner outer (importItems cfg parse ns b [n] (t, h)).1.1.members).1 = _
  rw [hm1]
  rfl

theorem two_imports_resolve {Tree Bytes : Type} (cfg : Config)
    (parse : String → String → Except Error (Tree × List (String × Tree)))
    (textX textY : String) (b1 b2 : Nat) (h h2 : Heap)
    (outer1 outer2 : List String) (inner1 inner2 : String → List String)
    (treeX treeY : Tree) (defsX defsY : List (String × Tree))
    (hb1 : (h.bundles b1).items = mapPut mapEmpty "partials/x" textX)
    (hpX : parse "partials/x" textX = .ok (treeX, defsX))
    (hb2 : (h2.bundles b2).items = mapPut mapEmpty "views/y" textY)
    (hpY : parse "views/y" textY = .ok (treeY, defsY))
    (houter2 : outer2.Perm ["n1/partials/x", "n2/views/y"])
    (hinner2 : ∀ tk, (inner2 tk).Perm ["n1/partials/x", "n2/views/y"]) :
    ∃ A B,
      (ImportTemplatesFromMap cfg parse "n2" b2 ["views/y"] outer2 inner2
        ((ImportTemplatesFromMap cfg parse "n1" b1 ["partials/x"] outer1 inner1
          ((NewTemplateSet : TemplateSet Tree Bytes), h)).1.1, h2)).1.1.members
        "n1/partials/x" = some A ∧
      (ImportTemplatesFromMap cfg parse "n2" b2 ["views/y"] outer2 inner2
        ((ImportTemplatesFromMap cfg parse "n1" b1 ["partials/x"] outer1 inner1
          ((NewTemplateSet : TemplateSet Tree Bytes), h)).1.1, h2)).1.1.members
        "n2/views/y" = some B ∧
      A.NameWithNamespace cfg = "n1/partials/x" ∧ B.NameWithNamespace cfg = "n2/views/y" ∧
      (B.html.Lookup "n1/partials/x").isSome = true ∧
      (A.html.Lookup "n2/views/y").isSome = true := by
  have hk1 : "n1" ++ "/" ++ "partials/x" = "n1/partials/x" := by decide
  have hk2 : "n2" ++ "/" ++ "views/y" = "n2/views/y" := by decide
  have hne : ("n2/views/y" : String) ≠ "n1/partials/x" := by decide
  -- the first import
  have hm1 := import_single_members cfg parse "n1" "partials/x" textX b1 outer1 inner1
    (NewTemplateSet : TemplateSet Tree Bytes) h treeX defsX hb1 hpX
  rw [hk1] at hm1
  generalize (ImportTemplatesFromMap cfg parse "n1" b1 ["partials/x"] outer1 inner1
    ((NewTemplateSet : TemplateSet Tree Bytes), h)).1.1 = t1 at hm1 ⊢
  have hg1 := (associateOuter_spec cfg inner1 outer1
    (mapPut (NewTemplateSet : TemplateSet Tree Bytes).members "n1/partials/x"
      ⟨⟨"partials/x", treeX, mapPut (mapOfList defsX) "partials/x" treeX, false⟩, "n1",
        classify cfg "partials/x"⟩)).1
  rw [← hm1] at hg1
  have hrange0 : IsKeyRangeOf (mapPut (NewTemplateSet : TemplateSet Tree Bytes).members
      "n1/partials/x" ⟨⟨"partials/x", treeX, mapPut (mapOfList defsX) "partials/x" treeX,
        false⟩, "n1", classify cfg "partials/x"⟩) ["n1/partials/x"] :=
    isKeyRangeOf_mapPut _ _ isKeyRangeOf_mapEmpty rfl
  have hrange1 : IsKeyRangeOf t1.members ["n1/partials/x"] := isKeyRangeOf_grows hg1 hrange0
  have hesc0 : NoneEscaped (mapPut (NewTemplateSet : TemplateSet Tree Bytes).members
      "n1/partials/x" ⟨⟨"partials/x", treeX, mapPut (mapOfList defsX) "partials/x" treeX,
        false⟩, "n1", classify cfg "partials/x"⟩) := by
    intro k M hM
    simp only [mapPut, NewTemplateSet, mapEmpty] at hM
    split at hM
    · cases hM; rfl
    · cases hM
  have hesc1 : NoneEscaped t1.members := noneEscaped_of_grows hg1 hesc0
  have hnone : t1.members "n2/views/y" = none := by
    cases hv : t1.members "n2/views/y" with
    | none => rfl
    | some v =>
      have := (hrange1.2 "n2/views/y").2 (by simp [hv])
      simp at this
  -- the second import
  have hm2 := import_single_members cfg parse "n2" "views/y" textY b2 outer2 inner2
    t1 h2 treeY defsY hb2 hpY
  rw [hk2] at hm2
  generalize (ImportTemplatesFromMap cfg parse "n2" b2 ["views/y"] outer2 inner2
    (t1, h2)).1.1 = t2 at hm2 ⊢
  have hrange2 : IsKeyRangeOf (mapPut t1.members "n2/views/y"
      ⟨⟨"views/y", treeY, mapPut (mapOfList defsY) "views/y" treeY, false⟩, "n2",
        classify cfg "views/y"⟩) ["n2/views/y", "n1/partials/x"] :=
    isKeyRangeOf_mapPut _ _ hrange1 hnone
  have hesc2 : NoneEscaped (mapPut t1.members "n2/views/y"
      ⟨⟨"views/y", treeY, mapPut (mapOfList defsY) "views/y" treeY, false⟩, "n2",
        classify cfg "views/y"⟩) := by
    intro k M hM
    simp only [mapPut] at hM
    split at hM
    · cases hM; rfl
    · exact hesc1 k M hM
  have hok := associateOuter_ok_of_noneEscaped cfg inner2 outer2 _ hesc2
  have hrun : associateOuter cfg inner2 outer2 (mapPut t1.members "n2/views/y"
      ⟨⟨"views/y", treeY, mapPut (mapOfList defsY) "views/y" treeY, false⟩, "n2",
        classify cfg "views/y"⟩) = (t2.members, none) := Prod.ext hm2.symm hok
  have hall := resolves_all_of_run cfg outer2 inner2 _ t2.members
    (isKeyRangeOf_perm ((List.Perm.swap _ _ _).trans houter2.symm) hrange2)
    (fun tk => isKeyRangeOf_perm ((List.Perm.swap _ _ _).trans (hinner2 tk).symm) hrange2) hrun
  have hg2 := (associateOuter_spec cfg inner2 outer2 (mapPut t1.members "n2/views/y"
      ⟨⟨"views/y", treeY, mapPut (mapOfList defsY) "views/y" treeY, false⟩, "n2",
        classify cfg "views/y"⟩)).1
  rw [hrun] at hg2
  -- the two members
  obtain ⟨A1, hA1, hextA1⟩ := hg1.2 "n1/partials/x"
    ⟨⟨"partials/x", treeX, mapPut (mapOfList defsX) "partials/x" treeX, false⟩, "n1",
      classify cfg "partials/x"⟩ (by simp [mapPut])
  obtain ⟨A, hA, hextA⟩ := hg2.2 "n1/partials/x" A1 (by simp [mapPut, hne.symm, hA1])
  obtain ⟨B, hB, hextB⟩ := hg2.2 "n2/views/y"
    ⟨⟨"views/y", treeY, mapPut (mapOfList defsY) "views/y" treeY, false⟩, "n2",
      classify cfg "views/y"⟩ (by simp [mapPut])
  have hAn : A.NameWithNamespace cfg = "n1/partials/x" := by
    rw [extends_nameWithNamespace cfg hextA, extends_nameWithNamespace cfg hextA1]
    simp [Template.NameWithNamespace, Template.NameWithPrefix, applyPrefix_classify, hk1]
  have hBn : B.NameWithNamespace cfg = "n2/views/y" := by
    rw [extends_nameWithNamespace cfg hextB]
    simp [Template.NameWithNamespace, Template.NameWithPrefix, applyPrefix_classify, hk2]
  refine ⟨A, B, hA, hB, hAn, hBn, ?_, ?_⟩
  · rw [← hAn]; exact hall _ _ A B hA hB
  · rw [← hBn]; exact hall _ _ B A hB hA

/-! ## The properties -/

/-- C1: after `MakeAllAssociations` has completed without error, whatever the order in
which its loops visit the members, for every ordered pair of members `A`, `B` the lookup
`B.Lookup(A.NameWithNamespace())` is not nil.  In particular, after the import of
`partials/x` into `n1` and of `views/y` into `n2` by two calls of `ImportTemplatesFromMap`
on a new registry, the member at `n2/views/y` resolves `n1/partials/x` and the member at
`n1/partials/x` resolves `n2/views/y`. -/
theorem MakeAllAssociations_complete {Tree Bytes : Type} (cfg : Config) :
    (∀ (outer : List String) (inner : String → List String) (t t1 : TemplateSet Tree Bytes),
      IsKeyRangeOf t.members outer → (∀ tk, IsKeyRangeOf t.members (inner tk)) →
      MakeAllAssociations cfg outer inner t = (t1, none) →
      ∀ a b A B, t1.members a = some A → t1.members b = some B →
        (B.html.Lookup (A.NameWithNamespace cfg)).isSome = true) ∧
    (∀ (parse : String → String → Except Error (Tree × List (String × Tree)))
      (textX textY : String) (b1 b2 : Nat) (h h2 : Heap) (outer1 outer2 : List String)
      (inner1 inner2 : String → List String) (treeX treeY : Tree)
      (defsX defsY : List (String × Tree)),
      (h.bundles b1).items = mapPut mapEmpty "partials/x" textX →
      parse "partials/x" textX = .ok (treeX, defsX) →
      (h2.bundles b2).items = mapPut mapEmpty "views/y" textY →
      parse "views/y" textY = .ok (treeY, defsY) →
      outer2.Perm ["n1/partials/x", "n2/views/y"] →
      (∀ tk, (inner2 tk).Perm ["n1/partials/x", "n2/views/y"]) →
      ∃ A B,
        (ImportTemplatesFromMap cfg parse "n2" b2 ["views/y"] outer2 inner2
          ((ImportTemplatesFromMap cfg parse "n1" b1 ["partials/x"] outer1 inner1
            ((NewTemplateSet : TemplateSet Tree Bytes), h)).1.1, h2)).1.1.members
          "n1/partials/x" = some A ∧
        (ImportTemplatesFromMap cfg parse "n2" b2 ["views/y"] outer2 inner2
          ((ImportTemplatesFromMap cfg parse "n1" b1 ["partials/x"] outer1 inner1
            ((NewTemplateSet : TemplateSet Tree Bytes), h)).1.1, h2)).1.1.members
          "n2/views/y" = some B ∧
        A.NameWithNamespace cfg = "n1/partials/x" ∧ B.NameWithNamespace cfg = "n2/views/y" ∧
        (B.html.Lookup "n1/partials/x").isSome = true ∧
        (A.html.Lookup "n2/views/y").isSome = true) := by
  constructor
  · intro outer inner t t1 houter hinner hrun a b A B hA hB
    exact resolves_all_of_run cfg outer inner t.members t1.members houter hinner
      (associateOuter_of_run cfg outer inner t t1 hrun).1 a b A B hA hB
  · intro parse textX textY b1 b2 h h2 outer1 outer2 inner1 inner2 treeX treeY defsX defsY
      hb1 hpX hb2 hpY houter2 hinner2
    exact two_imports_resolve cfg parse textX textY b1 b2 h h2 outer1 outer2 inner1 inner2
      treeX treeY defsX defsY hb1 hpX hb2 hpY houter2 hinner2

theorem MakeAllAssociations_complete_witness :
    afterFirstImport.2 = none ∧ afterSecondImport.2 = none ∧
      (∃ A B, afterSecondImport.1.1.members "n1/partials/x" = some A ∧
        afterSecondImport.1.1.members "n2/views/y" = some B ∧
        (B.html.Lookup (A.NameWithNamespace defaultConfig)).isSome = true ∧
        (A.html.Lookup (B.NameWithNamespace defaultConfig)).isSome = true) ∧
      (∃ A B, afterSecondImport.1.1.members "n1/partials/x" = some A ∧
        afterSecondImport.1.1.members "n2/views/y" = some B ∧
        A.NameWithNamespace defaultConfig = "n1/partials/x" ∧
        B.NameWithNamespace defaultConfig = "n2/views/y" ∧
        (B.html.Lookup "n1/partials/x").isSome = true ∧
        (A.html.Lookup "n2/views/y").isSome = true) := by
  have hrun : MakeAllAssociations defaultConfig ["n2/views/y", "n1/partials/x"]
      (fun _ => ["n1/partials/x", "n2/views/y"]) afterSecondLoop.1.1 =
      (afterSecondImport.1.1, none) :=
    Prod.ext rfl (by decide)
  have key := (MakeAllAssociations_complete defaultConfig).1 ["n2/views/y", "n1/partials/x"]
    (fun _ => ["n1/partials/x", "n2/views/y"]) afterSecondLoop.1.1 afterSecondImport.1.1
    isKeyRangeOf_afterSecondLoop
    (fun _ => isKeyRangeOf_perm (List.Perm.swap _ _ _) isKeyRangeOf_afterSecondLoop) hrun
  have hA : (afterSecondImport.1.1.members "n1/partials/x").isSome = true := by decide
  have hB : (afterSecondImport.1.1.members "n2/views/y").isSome = true := by decide
  obtain ⟨A, hA⟩ := Option.isSome_iff_exists.1 hA
  obtain ⟨B, hB⟩ := Option.isSome_iff_exists.1 hB
  refine ⟨by decide, by decide, ⟨A, B, hA, hB, key _ _ A B hA hB, key _ _ B A hB hA⟩, ?_⟩
  exact (MakeAllAssociations_complete defaultConfig).2 toyParse "X" "Y"
    (newBundleOf "n1" [("partials/x", "X")] emptyHeap).1
    (newBundleOf "n2" [("views/y", "Y")] afterFirstImport.1.2).1
    (newBundleOf "n1" [("partials/x", "X")] emptyHeap).2
    (newBundleOf "n2" [("views/y", "Y")] afterFirstImport.1.2).2
    ["n1/partials/x"] ["n2/views/y", "n1/partials/x"] (fun _ => ["n1/partials/x"])
    (fun _ => ["n1/partials/x", "n2/views/y"]) "X" "Y" [] []
    (by rw [newBundleOf_items]; rfl) (by rfl) (by rw [newBundleOf_items]; rfl) (by rfl)
    (List.Perm.swap _ _ _) (fun _ => List.Perm.refl _)

/-- C2: after `ImportTemplatesFromMap(ns, bundle)` has returned nil, the member table holds,
for every item `(name, text)` of the bundle, at the key
`ns + "/" + ApplyPrefix(Classify(name), name)` a template of namespace `ns` and kind
`Classify(name)` whose `NameWithNamespace()` is that key; the prefix is not applied twice:
`ApplyPrefix(Classify(name), name)` is `name`. -/
theorem ImportTemplatesFromMap_members {Tree Bytes : Type} (cfg : Config)
    (parse : String → String → Except Error (Tree × List (String × Tree)))
    (ns : String) (bundle : Nat) (order outer : List String) (inner : String → List String)
    (t : TemplateSet Tree Bytes) (h : Heap)
    (horder : IsKeyRangeOf (h.bundles bundle).items order)
    (hret : (ImportTemplatesFromMap cfg parse ns bundle order outer inner (t, h)).2 = none) :
    ∀ name text, (h.bundles bundle).items name = some text →
      applyPrefix cfg (classify cfg name) name = name ∧
      ∃ T, (ImportTemplatesFromMap cfg parse ns bundle order outer inner (t, h)).1.1.members
            (ns ++ "/" ++ applyPrefix cfg (classify cfg name) name) = some T ∧
        T.Namespace = ns ∧ T.templateType = classify cfg name ∧ T.html.name = name ∧
        T.NameWithNamespace cfg = ns ++ "/" ++ applyPrefix cfg (classify cfg name) name := by
  intro name text hitem
  refine ⟨applyPrefix_classify cfg name, ?_⟩
  rw [applyPrefix_classify]
  rw [ImportTemplatesFromMap_error_iff] at hret
  obtain ⟨hm1, hm2, -⟩ := importItems_members cfg parse ns bundle order t h
  rw [hret] at hm2
  have hin : name ∈ order := (horder.2 name).2 (by simp [hitem])
  obtain ⟨tpl, htpl, hget⟩ := importMembers_get cfg parse ns (h.bundles bundle).items order
    horder.1 t.members hm2.symm name text hin hitem
  rw [← hm1] at hget
  rw [ImportTemplatesFromMap_of_ok _ _ _ _ _ _ _ _ hret]
  obtain ⟨T, hT, hext⟩ := (associateOuter_spec cfg inner outer
    (importItems cfg parse ns bundle order (t, h)).1.1.members).1.2 _ _ hget
  refine ⟨T, hT, hext.1, hext.2.1, ?_, ?_⟩
  · rw [hext.2.2.1]
    exact parseTemplate_name parse name text tpl htpl
  · rw [extends_nameWithNamespace cfg hext]
    simp [Template.NameWithNamespace, Template.NameWithPrefix,
      parseTemplate_name parse name text tpl htpl, applyPrefix_classify]

theorem ImportTemplatesFromMap_members_witness :
    homeFooterImport.2 = none ∧
      (homeFooterImport.1.1.members "app/views/home").map (fun T => T.templateType) =
        some TemplateView ∧
      (homeFooterImport.1.1.members "app/partials/footer").map (fun T => T.templateType) =
        some TemplatePartial := by
  have key := ImportTemplatesFromMap_members defaultConfig toyParse "app"
    (newBundleOf "app"
      [("views/home", "Hello \x7b\x7b.Name\x7d\x7d"), ("partials/footer", "© \x7b\x7b.Year\x7d\x7d")] emptyHeap).1
    ["views/home", "partials/footer"]
    ["app/views/home", "app/partials/footer"]
    (fun _ => ["app/partials/footer", "app/views/home"])
    (NewTemplateSet : TemplateSet String ToyBytes)
    (newBundleOf "app"
      [("views/home", "Hello \x7b\x7b.Name\x7d\x7d"), ("partials/footer", "© \x7b\x7b.Year\x7d\x7d")] emptyHeap).2
    (isKeyRangeOf_newBundleOf "app"
      [("views/home", "Hello \x7b\x7b.Name\x7d\x7d"), ("partials/footer", "© \x7b\x7b.Year\x7d\x7d")] emptyHeap
      (by decide))
    (by decide)
  refine ⟨by decide, ?_, ?_⟩
  · obtain ⟨-, T, hT, -, hkind, -⟩ := key "views/home" "Hello \x7b\x7b.Name\x7d\x7d" (by decide)
    have hkey : "app" ++ "/" ++ applyPrefix defaultConfig (classify defaultConfig "views/home")
        "views/home" = "app/views/home" := by decide
    rw [hkey] at hT
    unfold homeFooterImport
    rw [hT]
    show some T.templateType = _
    rw [hkind]
    decide
  · obtain ⟨-, T, hT, -, hkind, -⟩ := key "partials/footer" "© \x7b\x7b.Year\x7d\x7d" (by decide)
    have hkey : "app" ++ "/" ++ applyPrefix defaultConfig
        (classify defaultConfig "partials/footer") "partials/footer" =
          "app/partials/footer" := by decide
    rw [hkey] at hT
    unfold homeFooterImport
    rw [hT]
    show some T.templateType = _
    rw [hkind]
    decide

/-- C3, as stated, fails: with the partial prefix `shared/` and the view prefix
`shared/views/`, the name `shared/views/home` is not classified as a view. -/
theorem classify_overlapping_prefixes :
    classify overlappingConfig (overlappingConfig.PrefixNameView ++ "home") = TemplatePartial ∧
      TemplatePartial ≠ TemplateView := by
  decide

/-- C3, amended: the chain classifies the name `P + s` as the kind of `P` when `P + s`
begins with none of the prefixes tested before `P` (the chain tests Partial, View,
Component, Dialog, Form, Layout in this order); a name that begins with none of the six
prefixes is regular. -/
theorem classify_first_match (cfg : Config) (s name : String) :
    classify cfg (cfg.PrefixNamePartial ++ s) = TemplatePartial ∧
    (beginsWithNone (cfg.PrefixNameView ++ s) [cfg.PrefixNamePartial] = true →
      classify cfg (cfg.PrefixNameView ++ s) = TemplateView) ∧
    (beginsWithNone (cfg.PrefixNameComponent ++ s)
        [cfg.PrefixNamePartial, cfg.PrefixNameView] = true →
      classify cfg (cfg.PrefixNameComponent ++ s) = TemplateComponent) ∧
    (beginsWithNone (cfg.PrefixNameDialog ++ s)
        [cfg.PrefixNamePartial, cfg.PrefixNameView, cfg.PrefixNameComponent] = true →
      classify cfg (cfg.PrefixNameDialog ++ s) = TemplateDialog) ∧
    (beginsWithNone (cfg.PrefixNameForm ++ s)
        [cfg.PrefixNamePartial, cfg.PrefixNameView, cfg.PrefixNameComponent,
          cfg.PrefixNameDialog] = true →
      classify cfg (cfg.PrefixNameForm ++ s) = TemplateForm) ∧
    (beginsWithNone (cfg.PrefixNameLayout ++ s)
        [cfg.PrefixNamePartial, cfg.PrefixNameView, cfg.PrefixNameComponent,
          cfg.PrefixNameDialog, cfg.PrefixNameForm] = true →
      classify cfg (cfg.PrefixNameLayout ++ s) = TemplateLayout) ∧
    (beginsWithNone name
        [cfg.PrefixNamePartial, cfg.PrefixNameView, cfg.PrefixNameComponent,
          cfg.PrefixNameDialog, cfg.PrefixNameForm, cfg.PrefixNameLayout] = true →
      classify cfg name = TemplateRegular) := by
  refine ⟨?_, ?_, ?_, ?_, ?_, ?_, ?_⟩
  · simp [classify, hasPrefix_append]
  all_goals
    intro h
    simp only [beginsWithNone, List.all_cons, List.all_nil, Bool.and_true, Bool.and_eq_true,
      Bool.not_eq_true', ] at h
    simp [classify, hasPrefix_append, h]

theorem classify_first_match_witness :
    classify defaultConfig ("partials/" ++ "home") = TemplatePartial ∧
      classify defaultConfig ("views/" ++ "home") = TemplateView ∧
      classify defaultConfig ("components/" ++ "home") = TemplateComponent ∧
      classify defaultConfig ("dialogs/" ++ "home") = TemplateDialog ∧
      classify defaultConfig ("forms/" ++ "home") = TemplateForm ∧
      classify defaultConfig ("layouts/" ++ "home") = TemplateLayout ∧
      classify defaultConfig "index" = TemplateRegular :=
  ⟨(classify_first_match defaultConfig "home" "index").1,
    (classify_first_match defaultConfig "home" "index").2.1 (by decide),
    (classify_first_match defaultConfig "home" "index").2.2.1 (by decide),
    (classify_first_match defaultConfig "home" "index").2.2.2.1 (by decide),
    (classify_first_match defaultConfig "home" "index").2.2.2.2.1 (by decide),
    (classify_first_match defaultConfig "home" "index").2.2.2.2.2.1 (by decide),
    (classify_first_match defaultConfig "home" "index").2.2.2.2.2.2 (by decide)⟩

/-- C4, as stated, fails: the registry left by an import whose second of three items does
not parse holds the three raw texts; it is persisted without error, and restoring the
persisted bytes into a new registry returns the parse error, in whatever order the items
are visited. -/
theorem restore_fails_after_failed_import :
    threeItemImport.2 = some "template: unclosed action" ∧
    rawText threeItemImport.1 "app" "b" = some "\x7b\x7b" ∧
    persistedPartial.2 = none ∧
    [["a", "b", "c"], ["a", "c", "b"], ["b", "a", "c"], ["b", "c", "a"], ["c", "a", "b"],
        ["c", "b", "a"]].all
      (fun ord => decide (persistedPartial.1.binaryBundle.map
        (fun bytes => (RestoreTemplateBundleFromBinary toyDec defaultConfig toyParse ["app"]
          (fun _ => ord) (fun _ => ["app/a", "app/b", "app/c"])
          (fun _ _ => ["app/a", "app/b", "app/c"]) bytes
          ((NewTemplateSet : TemplateSet String ToyBytes), emptyHeap)).2) =
        some (some "template: unclosed action"))) = true := by
  decide

/-- C4, amended: when every raw text held by the registry `R` parses under its name, the
bytes that `PersistTemplateBundleToDisk` encodes for `R`, the codec being lossless on the
map of `R`, are restored by `RestoreTemplateBundleFromBinary` into a new registry without
error, in whatever order the loops visit the maps, and the restored registry then holds
exactly the raw texts of `R`. -/
theorem persist_restore_roundtrip {Tree Bytes : Type}
    (enc : GoMap (GoMap String) → Except Error Bytes)
    (dec : Bytes → Except Error (GoMap (GoMap String) × Bytes)) (cfg : Config)
    (parse : String → String → Except Error (Tree × List (String × Tree)))
    (R : TemplateSet Tree Bytes) (h h1 : Heap) (dirPath : String)
    (writeFile : Bytes → Option Error) (nsOrder : List String)
    (itemOrder : String → List String) (outer : String → List String)
    (inner : String → String → List String)
    (hcodec : ∃ b unread, enc (namespaceItems R h) = .ok b ∧
      dec b = .ok (namespaceItems R h, unread))
    (hparse : ∀ ns name text, rawText (R, h) ns name = some text →
      ∃ r, parse name text = .ok r)
    (hns : IsKeyRangeOf (namespaceItems R h) nsOrder)
    (hitems : ∀ ns m, namespaceItems R h ns = some m → IsKeyRangeOf m (itemOrder ns)) :
    ∃ bytes,
      (PersistTemplateBundleToDisk enc true dirPath writeFile R h).1.binaryBundle = some bytes ∧
      (RestoreTemplateBundleFromBinary dec cfg parse nsOrder itemOrder outer inner bytes
        (NewTemplateSet, h1)).2 = none ∧
      ∀ ns name,
        rawText (RestoreTemplateBundleFromBinary dec cfg parse nsOrder itemOrder outer inner
          bytes (NewTemplateSet, h1)).1 ns name = rawText (R, h) ns name := by
  obtain ⟨b, unread, henc, hdec⟩ := hcodec
  refine ⟨b, by simp [PersistTemplateBundleToDisk, henc], ?_⟩
  have hparse1 : ∀ ns m name text, namespaceItems R h ns = some m → m name = some text →
      ∃ r, parse name text = .ok r := by
    intro ns m name text hm hname
    apply hparse ns name text
    rw [rawText_eq_namespaceItems, hm]
    exact hname
  obtain ⟨s1, s2, s3, -, -⟩ := restoreNamespaces_spec cfg parse (namespaceItems R h) itemOrder
    outer inner hparse1 hitems nsOrder hns.1
    (⟨mapEmpty, mapEmpty, some unread⟩ : TemplateSet Tree Bytes) h1
    (fun _ _ => rfl) (fun ns b hb => by simp [mapEmpty] at hb)
  have hrestore : RestoreTemplateBundleFromBinary dec cfg parse nsOrder itemOrder outer inner b
      (NewTemplateSet, h1) =
      restoreNamespaces cfg parse (namespaceItems R h) itemOrder outer inner nsOrder
        (⟨mapEmpty, mapEmpty, some unread⟩, h1) := by
    simp [RestoreTemplateBundleFromBinary, hdec, NewTemplateSet]
  rw [hrestore]
  refine ⟨s1, fun ns name => ?_⟩
  by_cases hin : ns ∈ nsOrder
  · rw [s2 ns hin name, rawText_eq_namespaceItems]
  · have hnone : namespaceItems R h ns = none := by
      cases hv : namespaceItems R h ns with
      | none => rfl
      | some m => exact absurd ((hns.2 ns).2 (by simp [hv])) hin
    rw [rawText_eq_namespaceItems R h, hnone]
    simp [rawText, TemplateSet.Bundle, s3 ns hin, mapEmpty]

theorem persist_restore_roundtrip_witness :
    ∃ bytes, persistedHomeFooter.1.binaryBundle = some bytes ∧
      (RestoreTemplateBundleFromBinary toyDec defaultConfig toyParse ["app"]
        (fun _ => ["partials/footer", "views/home"])
        (fun _ => ["app/views/home", "app/partials/footer"])
        (fun _ _ => ["app/views/home", "app/partials/footer"]) bytes
        ((NewTemplateSet : TemplateSet String ToyBytes), emptyHeap)).2 = none ∧
      rawText (RestoreTemplateBundleFromBinary toyDec defaultConfig toyParse ["app"]
        (fun _ => ["partials/footer", "views/home"])
        (fun _ => ["app/views/home", "app/partials/footer"])
        (fun _ _ => ["app/views/home", "app/partials/footer"]) bytes
        ((NewTemplateSet : TemplateSet String ToyBytes), emptyHeap)).1 "app" "views/home" =
        some "Hello \x7b\x7b.Name\x7d\x7d" := by
  have hitemsEq : ((newBundleOf "app"
      [("views/home", "Hello \x7b\x7b.Name\x7d\x7d"), ("partials/footer", "© \x7b\x7b.Year\x7d\x7d")]
      emptyHeap).2.bundles (newBundleOf "app"
      [("views/home", "Hello \x7b\x7b.Name\x7d\x7d"), ("partials/footer", "© \x7b\x7b.Year\x7d\x7d")]
      emptyHeap).1).items =
      mapOfList [("views/home", "Hello \x7b\x7b.Name\x7d\x7d"), ("partials/footer", "© \x7b\x7b.Year\x7d\x7d")] :=
    newBundleOf_items _ _ _
  have hparseList : ∀ name text,
      mapOfList [("views/home", "Hello \x7b\x7b.Name\x7d\x7d"), ("partials/footer", "© \x7b\x7b.Year\x7d\x7d")] name =
        some text → ∃ r, toyParse name text = .ok r := by
    intro name text hm
    simp only [mapOfList, mapEmpty] at hm
    split at hm
    · cases hm; exact ⟨_, rfl⟩
    · split at hm
      · cases hm; exact ⟨_, rfl⟩
      · cases hm
  have hrange : IsKeyRangeOf
      (mapOfList [("views/home", "Hello \x7b\x7b.Name\x7d\x7d"), ("partials/footer", "© \x7b\x7b.Year\x7d\x7d")])
      ["views/home", "partials/footer"] :=
    isKeyRangeOf_mapOfList _ (by decide)
  obtain ⟨-, hheap, -, -⟩ := import_fresh_step defaultConfig toyParse "app"
    (newBundleOf "app"
      [("views/home", "Hello \x7b\x7b.Name\x7d\x7d"), ("partials/footer", "© \x7b\x7b.Year\x7d\x7d")] emptyHeap).1
    (newBundleOf "app"
      [("views/home", "Hello \x7b\x7b.Name\x7d\x7d"), ("partials/footer", "© \x7b\x7b.Year\x7d\x7d")] emptyHeap).2
    _ ["views/home", "partials/footer"] ["app/views/home", "app/partials/footer"]
    (fun _ => ["app/partials/footer", "app/views/home"])
    (NewTemplateSet : TemplateSet String ToyBytes) hitemsEq hparseList hrange rfl
  have hheap1 : homeFooterImport.1.2 = (newBundleOf "app"
      [("views/home", "Hello \x7b\x7b.Name\x7d\x7d"), ("partials/footer", "© \x7b\x7b.Year\x7d\x7d")] emptyHeap).2 :=
    hheap
  have hN : homeFooterImport.1.1.namespaces = mapPut mapEmpty "app" 0 := rfl
  have hD : ∀ ns m, namespaceItems homeFooterImport.1.1 homeFooterImport.1.2 ns = some m →
      m = mapOfList [("views/home", "Hello \x7b\x7b.Name\x7d\x7d"), ("partials/footer", "© \x7b\x7b.Year\x7d\x7d")] := by
    intro ns m hm
    unfold namespaceItems at hm
    rw [hN, hheap1] at hm
    by_cases hns : ns = "app"
    · subst hns
      have h0 : (mapPut (mapEmpty : GoMap Nat) "app" 0) "app" = some 0 := rfl
      rw [h0] at hm
      exact (Option.some.inj hm).symm.trans hitemsEq
    · have h0 : (mapPut (mapEmpty : GoMap Nat) "app" 0) ns = none := by
        simp [mapPut, mapEmpty, hns]
      rw [h0] at hm
      cases hm
  obtain ⟨bytes, h1, h2, h3⟩ := persist_restore_roundtrip toyEnc toyDec defaultConfig toyParse
    homeFooterImport.1.1 homeFooterImport.1.2 emptyHeap "bundles" (fun _ => none) ["app"]
    (fun _ => ["partials/footer", "views/home"])
    (fun _ => ["app/views/home", "app/partials/footer"])
    (fun _ _ => ["app/views/home", "app/partials/footer"])
    ⟨_, mapEmpty, rfl, rfl⟩
    (by
      intro ns name text hraw
      rw [rawText_eq_namespaceItems] at hraw
      cases hm : namespaceItems homeFooterImport.1.1 homeFooterImport.1.2 ns with
      | none => rw [hm] at hraw; cases hraw
      | some m =>
        rw [hm] at hraw
        have := hD ns m hm
        subst this
        exact hparseList name text hraw)
    (isKeyRangeOf_namespaceItems _ _ _
      (by rw [hN]; exact isKeyRangeOf_mapPut "app" 0 isKeyRangeOf_mapEmpty rfl))
    (by
      intro ns m hm
      have := hD ns m hm
      subst this
      exact isKeyRangeOf_perm (List.Perm.swap _ _ _) hrange)
  refine ⟨bytes, h1, h2, ?_⟩
  rw [h3 "app" "views/home"]
  decide

/-- C5: when the item at position `k` of the visit is the first whose text does not parse,
`ImportTemplatesFromMap` returns that parse error, every item visited before position `k`
is in the member table under its qualified name, and the entry of the member table for an
item at position `k` or later is the one from before the call. -/
theorem ImportTemplatesFromMap_first_parse_error {Tree Bytes : Type} (cfg : Config)
    (parse : String → String → Except Error (Tree × List (String × Tree)))
    (ns : String) (bundle : Nat) (order outer : List String) (inner : String → List String)
    (t : TemplateSet Tree Bytes) (h : Heap)
    (horder : IsKeyRangeOf (h.bundles bundle).items order)
    (k : Nat) (name text : String) (err : Error)
    (hk : order[k]? = some name) (htext : (h.bundles bundle).items name = some text)
    (hfail : parse name text = .error err)
    (hbefore : ∀ i n txt, i < k → order[i]? = some n →
      (h.bundles bundle).items n = some txt → ∃ r, parse n txt = .ok r) :
    (ImportTemplatesFromMap cfg parse ns bundle order outer inner (t, h)).2 = some err ∧
    (∀ i n txt, i < k → order[i]? = some n → (h.bundles bundle).items n = some txt →
      ∃ tpl, parseTemplate parse n txt = .ok tpl ∧
        (ImportTemplatesFromMap cfg parse ns bundle order outer inner (t, h)).1.1.members
            (ns ++ "/" ++ n) = some ⟨tpl, ns, classify cfg n⟩ ∧
        Template.NameWithNamespace cfg ⟨tpl, ns, classify cfg n⟩ = ns ++ "/" ++ n) ∧
    (∀ j n, k ≤ j → order[j]? = some n →
      (ImportTemplatesFromMap cfg parse ns bundle order outer inner (t, h)).1.1.members
          (ns ++ "/" ++ n) = t.members (ns ++ "/" ++ n)) := by
  obtain ⟨hklt, hkname⟩ := List.getElem?_eq_some.1 hk
  have hsplit : order = order.take k ++ name :: order.drop (k + 1) := by
    rw [← hkname, ← List.drop_eq_getElem_cons hklt, List.take_append_drop]
  have hnd : (order.take k ++ name :: order.drop (k + 1)).Nodup := hsplit ▸ horder.1
  obtain ⟨hndpre, -, hdisj⟩ := List.nodup_append.1 hnd
  have hpre_ok : (importMembers cfg parse ns (h.bundles bundle).items (order.take k)
      t.members).2 = none := by
    apply importMembers_ok
    intro n txt hn hitem
    obtain ⟨i, hi⟩ := List.mem_iff_getElem?.1 hn
    rw [List.getElem?_take] at hi
    split at hi
    · rename_i hlt
      exact hbefore i n txt hlt hi hitem
    · cases hi
  have hperr : parseTemplate parse name text = .error err := by
    simp [parseTemplate, hfail]
  have hmem : importMembers cfg parse ns (h.bundles bundle).items order t.members =
      ((importMembers cfg parse ns (h.bundles bundle).items (order.take k) t.members).1,
        some err) := by
    conv_lhs => rw [hsplit]
    rw [importMembers_append]
    cases hr : importMembers cfg parse ns (h.bundles bundle).items (order.take k)
        t.members with
    | mk ms1 e =>
      rw [hr] at hpre_ok
      cases hpre_ok
      simp only
      rw [importMembers_cons_error _ _ _ _ _ _ _ _ _ htext hperr]
  obtain ⟨hm1, hm2, -⟩ := importItems_members cfg parse ns bundle order t h
  rw [hmem] at hm1 hm2
  have himp := ImportTemplatesFromMap_of_error cfg parse ns bundle order outer inner (t, h)
    err hm2
  rw [himp]
  refine ⟨rfl, ?_, ?_⟩
  · intro i n txt hi hn hitem
    have hnpre : n ∈ order.take k :=
      List.getElem?_mem (by rw [List.getElem?_take_of_lt hi]; exact hn)
    obtain ⟨tpl, htpl, hget⟩ := importMembers_get cfg parse ns (h.bundles bundle).items
      (order.take k) hndpre t.members hpre_ok n txt hnpre hitem
    refine ⟨tpl, htpl, ?_, ?_⟩
    · show (importItems cfg parse ns bundle order (t, h)).1.1.members (ns ++ "/" ++ n) = _
      rw [hm1]
      exact hget
    · simp [Template.NameWithNamespace, Template.NameWithPrefix,
        parseTemplate_name parse n txt tpl htpl, applyPrefix_classify]
  · intro j n hj hn
    have hnpost : n ∈ name :: order.drop (k + 1) := by
      rw [← hkname, ← List.drop_eq_getElem_cons hklt]
      apply List.getElem?_mem (n := j - k)
      rw [List.getElem?_drop]
      have : k + (j - k) = j := by omega
      rw [this]
      exact hn
    show (importItems cfg parse ns bundle order (t, h)).1.1.members (ns ++ "/" ++ n) = _
    rw [hm1]
    apply importMembers_other
    intro m hm heq
    have := key_injective ns _ _ heq
    subst this
    exact List.disjoint_left.1 hdisj hm hnpost

theorem ImportTemplatesFromMap_first_parse_error_witness :
    threeItemImport.2 = some "template: unclosed action" ∧
      (threeItemImport.1.1.members "app/a").isSome = true ∧
      (threeItemImport.1.1.members "app/b").isSome = false ∧
      (threeItemImport.1.1.members "app/c").isSome = false := by
  have key := ImportTemplatesFromMap_first_parse_error defaultConfig toyParse "app"
    (newBundleOf "app" [("a", "A"), ("b", "\x7b\x7b"), ("c", "C")] emptyHeap).1 ["a", "b", "c"]
    ["app/a"] (fun _ => ["app/a"]) (NewTemplateSet : TemplateSet String ToyBytes)
    (newBundleOf "app" [("a", "A"), ("b", "\x7b\x7b"), ("c", "C")] emptyHeap).2
    (isKeyRangeOf_newBundleOf "app" [("a", "A"), ("b", "\x7b\x7b"), ("c", "C")] emptyHeap
      (by decide))
    1 "b" "\x7b\x7b" "template: unclosed action" (by decide) (by decide) (by rfl)
    (by
      intro i n txt hi hn ht
      have hi0 : i = 0 := by omega
      subst hi0
      simp at hn
      subst hn
      have : txt = "A" := by
        have h2 : ((newBundleOf "app" [("a", "A"), ("b", "\x7b\x7b"), ("c", "C")] emptyHeap).2.bundles
          (newBundleOf "app" [("a", "A"), ("b", "\x7b\x7b"), ("c", "C")] emptyHeap).1).items "a"
            = some "A" := by decide
        rw [h2] at ht
        exact (Option.some.inj ht).symm
      subst this
      exact ⟨("A", []), by rfl⟩)
  obtain ⟨h1, h2, h3⟩ := key
  refine ⟨h1, ?_, ?_, ?_⟩
  · obtain ⟨tpl, -, hmem, -⟩ := h2 0 "a" "A" (by decide) (by decide) (by decide)
    show (threeItemImport.1.1.members ("app" ++ "/" ++ "a")).isSome = true
    unfold threeItemImport
    rw [hmem]
    rfl
  · have := h3 1 "b" (by decide) (by decide)
    show (threeItemImport.1.1.members ("app" ++ "/" ++ "b")).isSome = false
    unfold threeItemImport
    rw [this]
    rfl
  · have := h3 2 "c" (by decide) (by decide)
    show (threeItemImport.1.1.members ("app" ++ "/" ++ "c")).isSome = false
    unfold threeItemImport
    rw [this]
    rfl

/-- C6: after `ImportTemplatesFromMap(ns, {n: t1})` followed by
`ImportTemplatesFromMap(ns, {n: t2})`, both texts parsing, the member at `ns + "/" + n` is
the template parsed from `t2` (its name, its kind, its tree and every name that its text
defines); the item `n` of the bundle of `ns` is `t2`, where it was `t1` after the first
call; and the second call leaves the other items of that bundle as they were. -/
theorem second_import_wins {Tree Bytes : Type} (cfg : Config)
    (parse : String → String → Except Error (Tree × List (String × Tree)))
    (ns n t1 t2 : String) (b1 b2 : Nat) (outer1 outer2 : List String)
    (inner1 inner2 : String → List String) (t : TemplateSet Tree Bytes) (h h2 : Heap)
    (tree1 tree2 : Tree) (defs1 defs2 : List (String × Tree))
    (hb1 : (h.bundles b1).items = mapPut mapEmpty n t1)
    (hp1 : parse n t1 = .ok (tree1, defs1))
    (hb2 : (h2.bundles b2).items = mapPut mapEmpty n t2)
    (hp2 : parse n t2 = .ok (tree2, defs2)) :
    (ImportTemplatesFromMap cfg parse ns b1 [n] outer1 inner1 (t, h)).2 = none ∧
    rawText (ImportTemplatesFromMap cfg parse ns b1 [n] outer1 inner1 (t, h)).1 ns n =
      some t1 ∧
    (ImportTemplatesFromMap cfg parse ns b2 [n] outer2 inner2
      ((ImportTemplatesFromMap cfg parse ns b1 [n] outer1 inner1 (t, h)).1.1, h2)).2 = none ∧
    (∃ T, (ImportTemplatesFromMap cfg parse ns b2 [n] outer2 inner2
          ((ImportTemplatesFromMap cfg parse ns b1 [n] outer1 inner1 (t, h)).1.1, h2)).1.1.members
          (ns ++ "/" ++ n) = some T ∧
        T.Namespace = ns ∧ T.templateType = classify cfg n ∧ T.html.name = n ∧
        T.html.tree = tree2 ∧
        ∀ x v, mapPut (mapOfList defs2) n tree2 x = some v → T.html.Lookup x = some v) ∧
    rawText (ImportTemplatesFromMap cfg parse ns b2 [n] outer2 inner2
      ((ImportTemplatesFromMap cfg parse ns b1 [n] outer1 inner1 (t, h)).1.1, h2)).1 ns n =
      some t2 ∧
    ∀ k, k ≠ n →
      rawText (ImportTemplatesFromMap cfg parse ns b2 [n] outer2 inner2
        ((ImportTemplatesFromMap cfg parse ns b1 [n] outer1 inner1 (t, h)).1.1, h2)).1 ns k =
      rawText ((ImportTemplatesFromMap cfg parse ns b1 [n] outer1 inner1 (t, h)).1.1, h2)
        ns k := by
  obtain ⟨a1, -, a3, -⟩ := import_single cfg parse ns n t1 b1 outer1 inner1 t h tree1 defs1
    hb1 hp1
  obtain ⟨c1, c2, c3, c4⟩ := import_single cfg parse ns n t2 b2 outer2 inner2
    (ImportTemplatesFromMap cfg parse ns b1 [n] outer1 inner1 (t, h)).1.1 h2 tree2 defs2
    hb2 hp2
  exact ⟨a1, a3, c1, c2, c3, c4⟩

theorem second_import_wins_witness :
    rawText firstHomeImport.1 "app" "views/home" = some "Hello" ∧
      rawText secondHomeImport.1 "app" "views/home" = some "Goodbye" ∧
      (secondHomeImport.1.1.members "app/views/home").map (fun T => T.html.tree) =
        some "Goodbye" := by
  obtain ⟨-, a2, -, ⟨T, hT, -, -, -, htree, -⟩, c3, -⟩ :=
    second_import_wins defaultConfig toyParse "app" "views/home" "Hello" "Goodbye"
      (newBundleOf "app" [("views/home", "Hello")] emptyHeap).1
      (newBundleOf "app" [("views/home", "Goodbye")] firstHomeImport.1.2).1
      ["app/views/home"] ["app/views/home"] (fun _ => ["app/views/home"])
      (fun _ => ["app/views/home"]) (NewTemplateSet : TemplateSet String ToyBytes)
      (newBundleOf "app" [("views/home", "Hello")] emptyHeap).2
      (newBundleOf "app" [("views/home", "Goodbye")] firstHomeImport.1.2).2
      "Hello" "Goodbye" [] []
      (by rw [newBundleOf_items]; rfl) (by rfl) (by rw [newBundleOf_items]; rfl) (by rfl)
  refine ⟨a2, c3, ?_⟩
  have hT1 : secondHomeImport.1.1.members "app/views/home" = some T := hT
  rw [hT1]
  show some T.html.tree = _
  rw [htree]

/-- C7 fails on the code: after the member `n1/partials/x` has been rendered, the
association pass of the import of `views/y` into `n2` returns the error of `AddParseTree`
and `ImportTemplatesFromMap` returns nil, in whatever order the loops of the pass visit
the two members. -/
theorem import_drops_association_error :
    [["n1/partials/x", "n2/views/y"], ["n2/views/y", "n1/partials/x"]].all (fun outer =>
      [["n1/partials/x", "n2/views/y"], ["n2/views/y", "n1/partials/x"]].all (fun inner1 =>
        [["n1/partials/x", "n2/views/y"], ["n2/views/y", "n1/partials/x"]].all (fun inner2 =>
          decide ((MakeAllAssociations defaultConfig outer
              (fun tk => if tk = "n1/partials/x" then inner1 else inner2)
              (importItems defaultConfig toyParse "n2"
                (newBundleOf "n2" [("views/y", "Y")] afterFirstImport.1.2).1 ["views/y"]
                (afterRender,
                  (newBundleOf "n2" [("views/y", "Y")] afterFirstImport.1.2).2)).1.1).2 =
            some "html/template: cannot Parse after Execute") &&
          decide ((ImportTemplatesFromMap defaultConfig toyParse "n2"
              (newBundleOf "n2" [("views/y", "Y")] afterFirstImport.1.2).1 ["views/y"] outer
              (fun tk => if tk = "n1/partials/x" then inner1 else inner2)
              (afterRender,
                (newBundleOf "n2" [("views/y", "Y")] afterFirstImport.1.2).2)).2 = none)))) =
      true := by
  decide

/-- C8: a second run of `MakeAllAssociations` directly after a successful one, in whatever
order it visits the members, attaches nothing (every execution of the loop body leaves the
member table as it is), returns nil and leaves the registry, hence every name space,
unchanged. -/
theorem MakeAllAssociations_idempotent {Tree Bytes : Type} (cfg : Config)
    (outer : List String) (inner : String → List String) (t t1 : TemplateSet Tree Bytes)
    (houter : IsKeyRangeOf t.members outer)
    (hinner : ∀ tk, IsKeyRangeOf t.members (inner tk))
    (hrun : MakeAllAssociations cfg outer inner t = (t1, none))
    (outer2 : List String) (inner2 : String → List String) :
    MakeAllAssociations cfg outer2 inner2 t1 = (t1, none) ∧
      ∀ tk mk, associate cfg t1.members tk mk = (t1.members, none) := by
  have hall := resolves_all_of_run cfg outer inner t.members t1.members houter hinner
    (associateOuter_of_run cfg outer inner t t1 hrun).1
  refine ⟨?_, fun tk mk => (associate_spec cfg t1.members tk mk).2.2 (hall tk mk)⟩
  unfold MakeAllAssociations
  rw [(associateOuter_spec cfg inner2 outer2 t1.members).2.2 hall]

theorem MakeAllAssociations_idempotent_witness :
    MakeAllAssociations defaultConfig ["n1/partials/x", "n2/views/y"]
        (fun _ => ["n2/views/y", "n1/partials/x"]) afterSecondImport.1.1 =
      (afterSecondImport.1.1, none) :=
  (MakeAllAssociations_idempotent defaultConfig ["n2/views/y", "n1/partials/x"]
    (fun _ => ["n1/partials/x", "n2/views/y"]) afterSecondLoop.1.1 afterSecondImport.1.1
    isKeyRangeOf_afterSecondLoop
    (fun _ => isKeyRangeOf_perm (List.Perm.swap _ _ _) isKeyRangeOf_afterSecondLoop)
    (Prod.ext rfl (by decide)) ["n1/partials/x", "n2/views/y"]
    (fun _ => ["n2/views/y", "n1/partials/x"])).1

/-- C9: applying the kind prefix is idempotent for every kind, prefix table and name:
a template named `NameWithPrefix()` of `t` and of the kind of `t` has the same
`NameWithPrefix()`, and a name that already begins with the prefix of the kind is returned
as it is. -/
theorem NameWithPrefix_idempotent {Tree : Type} (cfg : Config) (t : Template Tree)
    (s : String) :
    Template.NameWithPrefix cfg
        { t with html := { t.html with name := t.NameWithPrefix cfg } } = t.NameWithPrefix cfg ∧
    Template.NameWithPrefix cfg
        { t with html := { t.html with name := prefixName cfg t.templateType ++ s } }
      = prefixName cfg t.templateType ++ s := by
  constructor
  · simp only [Template.NameWithPrefix, applyPrefix]
    by_cases h : HasPrefix t.html.name (prefixName cfg t.templateType) = true
    · simp [h]
    · simp [h, hasPrefix_append]
  · simp [Template.NameWithPrefix, applyPrefix, hasPrefix_append]

/-- C10 fails on the code: for the root `templates` and the file
`partials/templates_list.tmpl` the name computed on a host with separator `\` is
`partials/_list`, the name computed on a host with separator `/` is
`partials/templates_list`. -/
theorem windows_name_differs :
    templateNameOfPath true "\\" "templates" ".tmpl"
        (walkPath "\\" "templates" ["partials", "templates_list.tmpl"]) =
      some "partials/_list" ∧
    templateNameOfPath false "/" "templates" ".tmpl"
        (walkPath "/" "templates" ["partials", "templates_list.tmpl"]) =
      some "partials/templates_list" := by
  decide

end Isokit
